import Mathlib

/-!
Verification development for the `ledcontroller` library
(`ledcontroller/__init__.py`): a client-side encoder and dispatcher for the
LimitlessLED/MiLight UDP protocol.

The Python code is shallowly embedded as follows.

* Bytes are `Nat`s (all byte values in the source are literals in 0..255);
  a wire frame is a `List Nat`; the list of frames handed to the UDP socket
  (in order) is the `Trace`.
* The mutable `LedController` object is a `LedController` structure threaded
  explicitly through every operation.  The per-group bulb-type dict
  `self.group` is an insertion-ordered association list, exactly like a
  Python `dict`.
* A Python method that can raise is a function into `Res`, which carries the
  final object state, the final trace, and `some e` when an exception was
  raised (Python exceptions do not roll back prior mutations or prior sends,
  so the state and trace at raise time are preserved).
* The timing part of `_send_command` (lines 174-178) and the pool timestamp
  sharing of `LedControllerPool.execute` are modelled separately at the end
  of the file with an explicit rational-valued wall clock: `time.sleep(d)`
  advances the clock by `d`, and arbitrary nonnegative drift may elapse
  before each send.  The frame-content part of `_send_command`
  (lines 179-190) is `encodeFrame`/`sendCommandTr` below.
* Python `float` arithmetic in `set_brightness` and `rgb_to_hue` is modelled
  over `ℚ`; at every concrete input used by the claims the rational value
  and the IEEE-754 evaluation truncate to the same integer.
-/

/-- Bulb type for a group: the strings `"rgbw"` / `"white"` accepted by
`set_group_type`. -/
inductive BulbType
  | rgbw
  | white
deriving DecidableEq

/-- The distinct exception sites of the source, told apart by their message:
`AttributeError("Group must be between 1 and 4 ...")` (`invalidGroup`),
`AttributeError("Bulb type must be either rgbw or white")`
(`invalidBulbType`), `AttributeError("Color must be color keyword or 0-255")`
(`invalidColorValue`), `AttributeError("... is not a valid color.")`
(`unknownColor`), `ValueError` in the constructor (`valueError`), and a
`KeyError` from a missing dict key (`keyError`, never reached from the
public surface). -/
inductive Err
  | invalidGroup
  | invalidBulbType
  | invalidColorValue
  | unknownColor
  | valueError
  | keyError
deriving DecidableEq

/-- A wire frame: the byte string handed to `sock.sendto`. -/
abbrev Frame := List Nat

/-- The ordered log of frames transmitted so far. -/
abbrev Trace := List Frame

/-- Python `d[k] = v` on an insertion-ordered association list, with Python `dict`
semantics: replace in place if the key exists, else append. -/
def dictSet : List (Nat × BulbType) → Nat → BulbType → List (Nat × BulbType)
  | [], k, v => [(k, v)]
  | (k0, v0) :: rest, k, v =>
    if k0 = k then (k0, v) :: rest else (k0, v0) :: dictSet rest k v

/-- Python `d.get(k)` / `d[k]` lookup on the association list. -/
def dictGet : List (Nat × BulbType) → Nat → Option BulbType
  | [], _ => none
  | (k0, v0) :: rest, k => if k0 = k then some v0 else dictGet rest k

/-- Concatenation of `n` copies of the trace `l`, concatenated. -/
def repTrace : Nat → Trace → Trace
  | 0, _ => []
  | Nat.succ m, l => l ++ repTrace m l

/-- The mutable state of a `LedController` instance that the command logic
reads: the per-group bulb-type dict, the two cached flags derived from it,
and the retry count.  The pacing fields (`last_command_at`,
`pause_between_commands`) belong to the timed model at the end of the file;
`gateway_ip`/`gateway_port` only parameterize the socket write. -/
structure LedController where
  group : List (Nat × BulbType)
  has_white : Bool
  has_rgbw : Bool
  repeat_commands : Nat
deriving DecidableEq

/-- Result of running a method: final object state, final trace, and the
exception raised (if any).  Mutations and sends made before a raise are
kept, as in Python. -/
structure Res where
  st : LedController
  tr : Trace
  err : Option Err
deriving DecidableEq

/-- Table `WHITE_COMMANDS`: dict from command name to a tuple of byte strings. -/
def WHITE_COMMANDS : List (String × List (List Nat)) :=
  [("all_on", [[0x35]]),
   ("all_off", [[0x39]]),
   ("all_full", [[0xb5]]),
   ("all_nightmode", [[0xb9]]),
   ("warmer", [[0x3e]]),
   ("cooler", [[0x3f]]),
   ("brightness_up", [[0x3c]]),
   ("brightness_down", [[0x34]])]

/-- Table `WHITE_GROUP_X_ON`. -/
def WHITE_GROUP_X_ON : List (Option (List (List Nat))) :=
  [some [[0x38]], some [[0x3d]], some [[0x37]], some [[0x32]]]

/-- Table `WHITE_GROUP_X_OFF`. -/
def WHITE_GROUP_X_OFF : List (Option (List (List Nat))) :=
  [some [[0x3b]], some [[0x33]], some [[0x3a]], some [[0x36]]]

/-- Table `WHITE_GROUP_X_FULL`. -/
def WHITE_GROUP_X_FULL : List (Option (List (List Nat))) :=
  [some [[0xb8]], some [[0xbd]], some [[0xb7]], some [[0xb2]]]

/-- Table `WHITE_GROUP_X_NIGHTMODE`. -/
def WHITE_GROUP_X_NIGHTMODE : List (Option (List (List Nat))) :=
  [some [[0xbb]], some [[0xb3]], some [[0xba]], some [[0xb6]]]

/-- Table `RGBW_GROUP_X_ON`. -/
def RGBW_GROUP_X_ON : List (Option (List (List Nat))) :=
  [some [[0x45]], some [[0x47]], some [[0x49]], some [[0x4b]]]

/-- Table `RGBW_GROUP_X_OFF`. -/
def RGBW_GROUP_X_OFF : List (Option (List (List Nat))) :=
  [some [[0x46]], some [[0x48]], some [[0x4a]], some [[0x4c]]]

/-- Table `RGBW_GROUP_X_TO_WHITE`. -/
def RGBW_GROUP_X_TO_WHITE : List (Option (List (List Nat))) :=
  [some [[0xc5]], some [[0xc7]], some [[0xc9]], some [[0xcb]]]

/-- Table `RGBW_GROUP_X_NIGHTMODE`. -/
def RGBW_GROUP_X_NIGHTMODE : List (Option (List (List Nat))) :=
  [some [[0xc6]], some [[0xc8]], some [[0xca]], some [[0xcc]]]

/-- Table `RGBW_COMMANDS`.  The `"color_by_int"` entry is the bare byte string
`b"\x40"` in the source; it is only ever read to build the tuple
`(b"\x40", struct.pack("B", color))`, which the call sites below construct
directly. -/
def RGBW_COMMANDS : List (String × List (List Nat)) :=
  [("all_on", [[0x42]]),
   ("all_off", [[0x41]]),
   ("all_white", [[0xc2]]),
   ("disco", [[0x4d]]),
   ("disco_faster", [[0x44]]),
   ("disco_slower", [[0x43]]),
   ("all_nightmode", [[0xc1]]),
   ("color_by_int", [[0x40]]),
   ("color_to_violet", [[0x40], [0x00]]),
   ("color_to_royal_blue", [[0x40], [0x10]]),
   ("color_to_baby_blue", [[0x40], [0x20]]),
   ("color_to_aqua", [[0x40], [0x30]]),
   ("color_to_royal_mint", [[0x40], [0x40]]),
   ("color_to_seafoam_green", [[0x40], [0x50]]),
   ("color_to_green", [[0x40], [0x60]]),
   ("color_to_lime_green", [[0x40], [0x70]]),
   ("color_to_yellow", [[0x40], [0x80]]),
   ("color_to_yellow_orange", [[0x40], [0x90]]),
   ("color_to_orange", [[0x40], [0xa0]]),
   ("color_to_red", [[0x40], [0xb0]]),
   ("color_to_pink", [[0x40], [0xc0]]),
   ("color_to_fusia", [[0x40], [0xd0]]),
   ("color_to_lilac", [[0x40], [0xe0]]),
   ("color_to_lavendar", [[0x40], [0xf0]])]

/-- Python `struct.pack("B", n)`: a one-byte string.  Every call site passes a
value already validated to lie in 0..255. -/
def packB (n : Nat) : List Nat := [n]

/-- The concatenation loop of `_send_command` (lines 179-181):
`command = b""` then `command = command + item` over the tuple. -/
def catBytes (input_command : List (List Nat)) : List Nat :=
  input_command.foldl (fun acc item => acc ++ item) []

/-- The frame-assembly part of `_send_command` (lines 179-186): concatenate
the byte strings of the tuple, pad a 1-byte result with `0x00`, then append
the `0x55` terminator to a 2-byte result. -/
def encodeFrame (input_command : List (List Nat)) : Frame :=
  let command := catBytes input_command
  let command := if command.length = 1 then command ++ [0x00] else command
  if command.length = 2 then command ++ [0x55] else command

/-- Method `_send_command` as seen by the trace: `None` short-circuits (line 172),
otherwise the encoded frame is appended to the transmission log. -/
def sendCommandTr (tr : Trace) (input_command : Option (List (List Nat))) : Trace :=
  match input_command with
  | none => tr
  | some c => tr ++ [encodeFrame c]

/-- The keyword arguments `_send_to_group` reads, with their Python
defaults. -/
structure SendKwargs where
  retries : Option Nat := none
  send_on : Bool := true
  per_group : Bool := false
  command : Option String := none
  color : Option Nat := none
  white_cmd : Option (List (Option (List (List Nat)))) := none
  rgbw_cmd : Option (List (Option (List (List Nat)))) := none

/-- Python `group is None or group == 0` (the "all groups" sentinel). -/
def isAllGroups : Option Int → Bool
  | none => true
  | some n => n == 0

/-- Method `_send_to_all_groups` (lines 192-200). -/
def sendToAllGroups (st : LedController) (tr : Trace) (kw : SendKwargs) : Res :=
  match kw.command with
  | none => ⟨st, tr, some .keyError⟩
  | some cmd =>
    let tr := if st.has_white then sendCommandTr tr (WHITE_COMMANDS.lookup cmd) else tr
    if st.has_rgbw then
      if cmd = "color_by_int" then
        match kw.color with
        | none => ⟨st, tr, some .keyError⟩
        | some color => ⟨st, sendCommandTr tr (some [[0x40], packB color]), none⟩
      else ⟨st, sendCommandTr tr (RGBW_COMMANDS.lookup cmd), none⟩
    else ⟨st, tr, none⟩

/-- The per-iteration body of `_send_to_group` after the `send_on` step
(lines 213-230): dispatch to all groups, validate the group range, then
send either the per-group variant selected by the group's bulb type or the
flat table entry. -/
def sendToGroupRest (st : LedController) (tr : Trace) (group : Option Int)
    (kw : SendKwargs) : Res :=
  if isAllGroups group then sendToAllGroups st tr kw
  else
    match group with
    | none => sendToAllGroups st tr kw
    | some g =>
      if g < 1 ∨ 4 < g then ⟨st, tr, some .invalidGroup⟩
      else
        match dictGet st.group g.toNat with
        | none => ⟨st, tr, some .keyError⟩
        | some bt =>
          if kw.per_group then
            let lst :=
              match bt with
              | .white => kw.white_cmd.getD [none, none, none, none]
              | .rgbw => kw.rgbw_cmd.getD [none, none, none, none]
            ⟨st, sendCommandTr tr (lst.getD (g.toNat - 1) none), none⟩
          else
            match kw.command with
            | none => ⟨st, tr, some .keyError⟩
            | some cmd =>
              match bt with
              | .white => ⟨st, sendCommandTr tr (WHITE_COMMANDS.lookup cmd), none⟩
              | .rgbw =>
                if cmd = "color_by_int" then
                  match kw.color with
                  | none => ⟨st, tr, some .keyError⟩
                  | some color =>
                    ⟨st, sendCommandTr tr (some [[0x40], packB color]), none⟩
                else ⟨st, sendCommandTr tr (RGBW_COMMANDS.lookup cmd), none⟩

/-- The kwargs of `self._send_to_group(group, send_on=False, command="all_on")`
(the "all groups" branch of `on`, line 236). -/
def ON_KW_ALL : SendKwargs := { send_on := false, command := some "all_on" }

/-- The kwargs of the per-group branch of `on` (lines 238-240). -/
def ON_KW_GROUP : SendKwargs :=
  { per_group := true, white_cmd := some WHITE_GROUP_X_ON,
    rgbw_cmd := some RGBW_GROUP_X_ON, send_on := false }

/-- The retry loop of `_send_to_group` when `send_on` is false: `n`
iterations of the post-`send_on` body, stopping at the first exception. -/
def sendToGroupLoopNoOn : Nat → LedController → Trace → Option Int → SendKwargs → Res
  | 0, st, tr, _, _ => ⟨st, tr, none⟩
  | Nat.succ m, st, tr, group, kw =>
    let r := sendToGroupRest st tr group kw
    match r.err with
    | some _ => r
    | none => sendToGroupLoopNoOn m r.st r.tr group kw

/-- The nested `self.on(group)` call made at the top of each retry iteration
when `send_on` is true.  `on` itself is `_send_to_group` with `send_on=False`
and the default retry count, so it never recurses further; `onImpl` inlines
it to ground the mutual recursion.  `LedController.on` below is proved equal
to it (`on_eq_onImpl`). -/
def onImpl (st : LedController) (tr : Trace) (group : Option Int) : Res :=
  if isAllGroups group then
    sendToGroupLoopNoOn st.repeat_commands st tr group ON_KW_ALL
  else
    sendToGroupLoopNoOn st.repeat_commands st tr group ON_KW_GROUP

/-- The retry loop of `_send_to_group` when `send_on` is true: each
iteration first runs the full `on` operation, then the post-`send_on`
body. -/
def sendToGroupLoopOn : Nat → LedController → Trace → Option Int → SendKwargs → Res
  | 0, st, tr, _, _ => ⟨st, tr, none⟩
  | Nat.succ m, st, tr, group, kw =>
    let r1 := onImpl st tr group
    match r1.err with
    | some _ => r1
    | none =>
      let r2 := sendToGroupRest r1.st r1.tr group kw
      match r2.err with
      | some _ => r2
      | none => sendToGroupLoopOn m r2.st r2.tr group kw

/-- Method `_send_to_group` (lines 202-230): `retries` defaults to
`self.repeat_commands`; each iteration optionally powers the group on and
then sends the resolved command. -/
def sendToGroup (st : LedController) (tr : Trace) (group : Option Int)
    (kw : SendKwargs) : Res :=
  let retries := kw.retries.getD st.repeat_commands
  if kw.send_on then sendToGroupLoopOn retries st tr group kw
  else sendToGroupLoopNoOn retries st tr group kw

/-- Method `on` (lines 232-240). -/
def LedController.on (st : LedController) (tr : Trace) (group : Option Int) : Res :=
  if isAllGroups group then sendToGroup st tr group ON_KW_ALL
  else sendToGroup st tr group ON_KW_GROUP

/-- Method `off` (lines 242-250). -/
def LedController.off (st : LedController) (tr : Trace) (group : Option Int) : Res :=
  if isAllGroups group then
    sendToGroup st tr group { send_on := false, command := some "all_off" }
  else
    sendToGroup st tr group
      { per_group := true, send_on := false,
        rgbw_cmd := some RGBW_GROUP_X_OFF, white_cmd := some WHITE_GROUP_X_OFF }

/-- Method `white` (lines 252-259).  Note the per-group branch passes only
`rgbw_cmd`: a group configured as `"white"` gets no to-white frame. -/
def LedController.white (st : LedController) (tr : Trace) (group : Option Int) : Res :=
  if isAllGroups group then
    sendToGroup st tr group { command := some "all_white" }
  else
    sendToGroup st tr group
      { per_group := true, rgbw_cmd := some RGBW_GROUP_X_TO_WHITE }

/-- The nested `on` call inside the retry loop is the public `on`
operation. -/
theorem on_eq_onImpl (st : LedController) (tr : Trace) (group : Option Int) :
    LedController.on st tr group = onImpl st tr group := by
  unfold LedController.on onImpl sendToGroup ON_KW_ALL ON_KW_GROUP
  by_cases h : isAllGroups group = true <;> simp [h]

/-- Python `x % 1.0` for a nonnegative-or-negative real: the fractional
part, in `[0, 1)`. -/
def pyMod1 (q : ℚ) : ℚ := q - Int.floor q

/-- The hue component of `colorsys.rgb_to_hls`, over exact rationals.
Inputs are the channel values already divided by 255. -/
def hlsHue (r g b : ℚ) : ℚ :=
  let maxc := max r (max g b)
  let minc := min r (min g b)
  if minc = maxc then 0
  else
    let rangec := maxc - minc
    let rc := (maxc - r) / rangec
    let gc := (maxc - g) / rangec
    let bc := (maxc - b) / rangec
    let h :=
      if r = maxc then bc - gc
      else if g = maxc then 2 + rc - bc
      else 4 + gc - rc
    pyMod1 (h / 6)

/-- Function `rgb_to_hue` (lines 469-484): HLS hue, re-based so the protocol's hue
wheel starts at blue, scaled to a byte. -/
def rgb_to_hue (red green blue : Nat) : Nat :=
  let hue := hlsHue ((red : ℚ) / 255) ((green : ℚ) / 255) ((blue : ℚ) / 255)
      * (-1) + 1 + 2 / 3
  (Int.floor (pyMod1 hue * 256)).toNat

/-- Python `int(q)` on a rational: truncation toward zero. -/
def ratTrunc (q : ℚ) : Int := if q < 0 then -Int.floor (-q) else Int.floor q

/-- The float branch of `set_brightness` (lines 360-364): a float above 1 is
truncated to an integer percent, otherwise it is scaled by 100 and
truncated. -/
def floatPercent (q : ℚ) : Int :=
  if 1 < q then ratTrunc q else ratTrunc (q * 100)

/-- Method `get_brightness_level` (lines 335-347): clamp the percent to 0..100 and
map it into the device range 2..27.  For the clamped (hence nonnegative)
percent, Python `int(2 + (float(percent) / 100) * 25)` is the floor, which
integer division computes exactly. -/
def get_brightness_level (percent : Int) : Int × Int :=
  let percent := min 100 (max 0 percent)
  (percent, 2 + percent * 25 / 100)

/-- The `percent` argument of `set_brightness`: a Python `int` or `float`. -/
inductive BrightnessArg
  | int (n : Int)
  | float (q : ℚ)
deriving DecidableEq

/-- The integer percent `set_brightness` feeds to `get_brightness_level`
after its `isinstance(percent, float)` dispatch (lines 359-364). -/
def percentArg : BrightnessArg → Int
  | .int n => n
  | .float q => floatPercent q

/-- The value `set_brightness` returns (line 368): the clamped percent. -/
def set_brightness_return (arg : BrightnessArg) : Int :=
  (get_brightness_level (percentArg arg)).1

/-- Method `set_brightness` (lines 349-368): resolve the percent and device value,
run the full `on` operation, then send the brightness frame once. -/
def LedController.set_brightness (st : LedController) (tr : Trace)
    (arg : BrightnessArg) (group : Option Int) : Res :=
  let value := (get_brightness_level (percentArg arg)).2
  let r1 := st.on tr group
  match r1.err with
  | some _ => r1
  | none => ⟨r1.st, sendCommandTr r1.tr (some [[0x4e], packB value.toNat]), none⟩

/-- The `color` argument of `set_color`: a color-name string, an `RGB`
namedtuple, or an int. -/
inductive ColorArg
  | name (s : String)
  | rgb (r g b : Nat)
  | int (n : Int)
deriving DecidableEq

/-- Method `set_color` (lines 261-305): the literal `"white"` goes to `white`;
an `RGB` triple special-cases pure black to `off` and pure white to `white`
and otherwise goes through `rgb_to_hue`; an int 0-255 is a direct hue byte;
any other string is looked up as `color_to_<name>`. -/
def LedController.set_color (st : LedController) (tr : Trace) (color : ColorArg)
    (group : Option Int) : Res :=
  match color with
  | .name s =>
    if s = "white" then st.white tr group
    else
      let color_command := "color_to_" ++ s
      if (RGBW_COMMANDS.lookup color_command).isSome then
        sendToGroup st tr group { command := some color_command }
      else ⟨st, tr, some .unknownColor⟩
  | .rgb r g b =>
    if r = 0 ∧ g = 0 ∧ b = 0 then st.off tr group
    else if r = 255 ∧ g = 255 ∧ b = 255 then st.white tr group
    else
      sendToGroup st tr group
        { command := some "color_by_int", color := some (rgb_to_hue r g b) }
  | .int n =>
    if n < 0 ∨ 255 < n then ⟨st, tr, some .invalidColorValue⟩
    else
      sendToGroup st tr group
        { command := some "color_by_int", color := some n.toNat }

/-- Method `brightness_up` (lines 307-312). -/
def LedController.brightness_up (st : LedController) (tr : Trace)
    (group : Option Int) : Res :=
  sendToGroup st tr group { command := some "brightness_up" }

/-- Method `brightness_down` (lines 314-319). -/
def LedController.brightness_down (st : LedController) (tr : Trace)
    (group : Option Int) : Res :=
  sendToGroup st tr group { command := some "brightness_down" }

/-- Method `cooler` (lines 321-326). -/
def LedController.cooler (st : LedController) (tr : Trace)
    (group : Option Int) : Res :=
  sendToGroup st tr group { command := some "cooler" }

/-- Method `warmer` (lines 328-333). -/
def LedController.warmer (st : LedController) (tr : Trace)
    (group : Option Int) : Res :=
  sendToGroup st tr group { command := some "warmer" }

/-- Method `disco` (line 400): `retries=1`. -/
def LedController.disco (st : LedController) (tr : Trace)
    (group : Option Int) : Res :=
  sendToGroup st tr group { command := some "disco", retries := some 1 }

/-- Method `disco_faster` (line 404): `retries=1`. -/
def LedController.disco_faster (st : LedController) (tr : Trace)
    (group : Option Int) : Res :=
  sendToGroup st tr group { command := some "disco_faster", retries := some 1 }

/-- Method `disco_slower` (line 408): `retries=1`. -/
def LedController.disco_slower (st : LedController) (tr : Trace)
    (group : Option Int) : Res :=
  sendToGroup st tr group { command := some "disco_slower", retries := some 1 }

/-- Method `nightmode` (lines 410-434): switch off first, then send the nightmode
command once (direct sends for "all groups", a `retries=1` per-group send
otherwise). -/
def LedController.nightmode (st : LedController) (tr : Trace)
    (group : Option Int) : Res :=
  let r1 := st.off tr group
  match r1.err with
  | some _ => r1
  | none =>
    if isAllGroups group then
      let tr := if r1.st.has_rgbw then
          sendCommandTr r1.tr (RGBW_COMMANDS.lookup "all_nightmode") else r1.tr
      let tr := if r1.st.has_white then
          sendCommandTr tr (WHITE_COMMANDS.lookup "all_nightmode") else tr
      ⟨r1.st, tr, none⟩
    else
      sendToGroup r1.st r1.tr group
        { per_group := true, rgbw_cmd := some RGBW_GROUP_X_NIGHTMODE,
          white_cmd := some WHITE_GROUP_X_NIGHTMODE, send_on := false,
          retries := some 1 }

/-- Method `set_group_type` (lines 150-164): validate the bulb type (raising
leaves the object untouched), store it in the group dict, and recompute the
`has_white` / `has_rgbw` flags from the dict values. -/
def LedController.set_group_type (st : LedController) (group : Nat)
    (bulb_type : String) : LedController × Option Err :=
  if bulb_type ≠ "rgbw" ∧ bulb_type ≠ "white" then (st, some .invalidBulbType)
  else
    let bt := if bulb_type = "rgbw" then BulbType.rgbw else BulbType.white
    let d := dictSet st.group group bt
    ({ st with
        group := d,
        has_white := (d.map Prod.snd).contains BulbType.white,
        has_rgbw := (d.map Prod.snd).contains BulbType.rgbw }, none)

/-- The constructor loop `for group in range(1, 5): self.set_group_type(...)`
(lines 127-128), stopping at the first exception. -/
def initGroups : LedController → List (Nat × String) → LedController × Option Err
  | st, [] => (st, none)
  | st, (g, t) :: rest =>
    match st.set_group_type g t with
    | (st2, some e) => (st2, some e)
    | (st2, none) => initGroups st2 rest

/-- Constructor `LedController.__init__` (lines 117-141) restricted to the fields of
the command model: groups 1-4 are typed via `set_group_type`, then
`repeat_commands` is coerced (`0` becomes `1`) and validated (`< 1`
raises). -/
def mkLedController (g1 g2 g3 g4 : String) (repeats : Int) :
    LedController × Option Err :=
  let st0 : LedController :=
    { group := [], has_white := false, has_rgbw := false, repeat_commands := 0 }
  match initGroups st0 [(1, g1), (2, g2), (3, g3), (4, g4)] with
  | (st, some e) => (st, some e)
  | (st, none) =>
    let rc := if repeats = 0 then 1 else repeats
    if rc < 1 then (st, some .valueError)
    else ({ st with repeat_commands := rc.toNat }, none)

/-- A batched/public operation of the client, as dispatchable by
`batch_run` (function pointer plus arguments). -/
inductive Op
  | on (g : Option Int)
  | off (g : Option Int)
  | white (g : Option Int)
  | setColor (c : ColorArg) (g : Option Int)
  | setBrightness (b : BrightnessArg) (g : Option Int)
  | brightnessUp (g : Option Int)
  | brightnessDown (g : Option Int)
  | cooler (g : Option Int)
  | warmer (g : Option Int)
  | disco (g : Option Int)
  | discoFaster (g : Option Int)
  | discoSlower (g : Option Int)
  | nightmode (g : Option Int)
deriving DecidableEq

/-- Python `cmd(*args)`: dispatch one operation on the client. -/
def runOp (st : LedController) (tr : Trace) : Op → Res
  | .on g => st.on tr g
  | .off g => st.off tr g
  | .white g => st.white tr g
  | .setColor c g => st.set_color tr c g
  | .setBrightness b g => st.set_brightness tr b g
  | .brightnessUp g => st.brightness_up tr g
  | .brightnessDown g => st.brightness_down tr g
  | .cooler g => st.cooler tr g
  | .warmer g => st.warmer tr g
  | .disco g => st.disco tr g
  | .discoFaster g => st.disco_faster tr g
  | .discoSlower g => st.disco_slower tr g
  | .nightmode g => st.nightmode tr g

/-- The inner loop of `batch_run`: run the batched operations in list
order, stopping at the first exception. -/
def runOps : LedController → Trace → List Op → Res
  | st, tr, [] => ⟨st, tr, none⟩
  | st, tr, op :: rest =>
    let r := runOp st tr op
    match r.err with
    | some _ => r
    | none => runOps r.st r.tr rest

/-- The outer loop of `batch_run`: the whole list, `n` times over. -/
def runRounds : LedController → Trace → List Op → Nat → Res
  | st, tr, _, 0 => ⟨st, tr, none⟩
  | st, tr, cmds, Nat.succ m =>
    let r := runOps st tr cmds
    match r.err with
    | some _ => r
    | none => runRounds r.st r.tr cmds m

/-- Method `batch_run` (lines 436-466): force `repeat_commands` to 1, run the list
`original_retries` times in outer-loop order, and restore the retry count
afterwards.  The restore (line 466) is plain straight-line code with no
`try/finally`, so an exception skips it. -/
def LedController.batch_run (st : LedController) (tr : Trace)
    (cmds : List Op) : Res :=
  let original_retries := st.repeat_commands
  let st1 : LedController := { st with repeat_commands := 1 }
  let r := runRounds st1 tr cmds original_retries
  match r.err with
  | some e => ⟨r.st, r.tr, some e⟩
  | none => ⟨{ r.st with repeat_commands := original_retries }, r.tr, none⟩

/-- The pacing state of one controller: its configured minimum pause and
its `last_command_at` timestamp. -/
structure PacingController where
  pause_between_commands : ℚ
  last_command_at : ℚ
deriving DecidableEq

/-- The wall clock (`time.time()`).  `time.sleep(d)` advances `now` by `d`;
the model idealizes everything else as instantaneous. -/
structure WallClock where
  now : ℚ
deriving DecidableEq

/-- The pacing part of `_send_command` (lines 174-178): if the previous
frame went out less than `pause_between_commands` ago, sleep off the
shortfall; then stamp `last_command_at` with the (post-sleep) current time.
Returns the updated controller, the updated clock, and the instant the
frame was transmitted. -/
def sendCommandPaced (c : PacingController) (clk : WallClock) :
    PacingController × WallClock × ℚ :=
  let time_since_last_command := clk.now - c.last_command_at
  let clk2 : WallClock :=
    if time_since_last_command < c.pause_between_commands then
      ⟨clk.now + (c.pause_between_commands - time_since_last_command)⟩
    else clk
  ({ c with last_command_at := clk2.now }, clk2, clk2.now)

/-- One operation's sequence of sends through one controller, with an
arbitrary nonnegative drift of wall-clock time before each send (the list
argument).  Returns the transmission instants in order. -/
def runPacedSends : PacingController → WallClock → List ℚ →
    PacingController × WallClock × List ℚ
  | c, clk, [] => (c, clk, [])
  | c, clk, d :: rest =>
    let clk1 : WallClock := ⟨clk.now + d⟩
    let (c2, clk2, t) := sendCommandPaced c clk1
    let (c3, clk3, ts) := runPacedSends c2 clk2 rest
    (c3, clk3, t :: ts)

/-- Structure `LedControllerPool` state: the controllers and the pool's shared
`last_command_at` (lines 32-36). -/
structure PacingPool where
  controllers : List PacingController
  last_command_at : ℚ
deriving DecidableEq

/-- Method `LedControllerPool.execute` (lines 38-52): copy the pool timestamp into
the selected controller, run the command (here: its sends), and copy the
controller's timestamp back into the pool.  An out-of-range index is a
Python `IndexError` (`none`). -/
def PacingPool.execute (pool : PacingPool) (clk : WallClock)
    (controller_id : Nat) (drifts : List ℚ) :
    Option (PacingPool × WallClock × List ℚ) :=
  match pool.controllers.get? controller_id with
  | none => none
  | some c =>
    let c1 : PacingController := { c with last_command_at := pool.last_command_at }
    let (c2, clk2, ts) := runPacedSends c1 clk drifts
    some (⟨pool.controllers.set controller_id c2, c2.last_command_at⟩, clk2, ts)

/-- The frames (zero or one) that `_send_command` produces for a given
(optional) command tuple. -/
def frameOf : Option (List (List Nat)) → Trace
  | none => []
  | some c => [encodeFrame c]

/-- The Python default `[None, None, None, None]` for a missing per-group
command list. -/
def d4 : List (Option (List (List Nat))) := [none, none, none, none]

/-- The frames (zero or one) sent for group `g` out of a per-group command
list. -/
def groupFrame (lst : List (Option (List (List Nat)))) (g : Int) : Trace :=
  frameOf (lst.getD (g.toNat - 1) none)

/-- How many frames of the trace carry the given opcode (first byte).
Every frame of the protocol is identified by its first byte. -/
def countOp (t : Trace) (b : Nat) : Nat :=
  t.countP (fun fr => fr.headD 0x100 == b)

/-- The group argument of an operation. -/
def Op.groupArg : Op → Option Int
  | .on g => g
  | .off g => g
  | .white g => g
  | .setColor _ g => g
  | .setBrightness _ g => g
  | .brightnessUp g => g
  | .brightnessDown g => g
  | .cooler g => g
  | .warmer g => g
  | .disco g => g
  | .discoFaster g => g
  | .discoSlower g => g
  | .nightmode g => g

/-- Validity of a `set_color` color argument: a known color name (or the
literal `"white"`), any RGB triple, or an int in 0-255.  Invalid color
arguments raise their own `AttributeError` before any group handling. -/
def ColorArg.valid : ColorArg → Prop
  | .name s => s = "white" ∨ (RGBW_COMMANDS.lookup ("color_to_" ++ s)).isSome = true
  | .rgb _ _ _ => True
  | .int n => 0 ≤ n ∧ n ≤ 255

/-- Validity of an operation's non-group arguments. -/
def Op.argsValid : Op → Prop
  | .setColor c _ => c.valid
  | _ => True

/-- Well-formedness of the per-group dict as established by the
constructor: no duplicate keys, all keys in 1-4. -/
def stWF (st : LedController) : Prop :=
  (st.group.map Prod.fst).Nodup ∧ ∀ p ∈ st.group, 1 ≤ p.1 ∧ p.1 ≤ 4

/-- Consistency of the cached flags with the per-group dict: `has_white`
holds exactly when some group 1-4 is configured `"white"`, and likewise
for `has_rgbw`. -/
def flagsConsistent (st : LedController) : Prop :=
  (st.has_white = true ↔ ∃ k, 1 ≤ k ∧ k ≤ 4 ∧ dictGet st.group k = some .white) ∧
  (st.has_rgbw = true ↔ ∃ k, 1 ≤ k ∧ k ≤ 4 ∧ dictGet st.group k = some .rgbw)

/-- A freshly constructed controller with the default all-rgbw layout and
the default `repeat_commands = 3`, used as the concrete instance of the
general theorems. -/
def sampleController : LedController :=
  { group := [(1, .rgbw), (2, .rgbw), (3, .rgbw), (4, .rgbw)],
    has_white := false, has_rgbw := true, repeat_commands := 3 }

/-- The controller state built by the constructor for
`group_2="white"`, other groups rgbw. -/
def mixedController : LedController :=
  { group := [(1, .rgbw), (2, .white), (3, .rgbw), (4, .rgbw)],
    has_white := true, has_rgbw := true, repeat_commands := 3 }

/-- A two-gateway pool with pause 1 and fresh timestamps, used as the
concrete instance of the pool-pacing theorem. -/
def samplePool : PacingPool :=
  { controllers := [⟨1, 0⟩, ⟨1, 0⟩], last_command_at := 0 }

theorem sendCommandTr_eq (tr : Trace) (c : Option (List (List Nat))) :
    sendCommandTr tr c = tr ++ frameOf c := by
  cases c <;> simp [sendCommandTr, frameOf]

theorem repTrace_succ (n : Nat) (l : Trace) :
    repTrace (n + 1) l = l ++ repTrace n l := rfl

/-- Method `_send_to_all_groups` only appends to the trace, determines its frames
and outcome independently of the prior trace, and never mutates the
controller. -/
theorem allGroups_sl (st : LedController) (tr : Trace) (kw : SendKwargs) :
    sendToAllGroups st tr kw =
      ⟨st, tr ++ (sendToAllGroups st [] kw).tr, (sendToAllGroups st [] kw).err⟩ := by
  unfold sendToAllGroups
  cases hc : kw.command with
  | none => simp
  | some cmd =>
    simp only [sendCommandTr_eq]
    by_cases hw : st.has_white <;> by_cases hr : st.has_rgbw <;>
      by_cases hcbi : cmd = "color_by_int" <;>
      cases hcol : kw.color <;>
      simp [hw, hr, hcbi, hcol, sendCommandTr_eq]

/-- The post-`send_on` iteration body only appends to the trace and never
mutates the controller. -/
theorem rest_sl (st : LedController) (tr : Trace) (group : Option Int)
    (kw : SendKwargs) :
    sendToGroupRest st tr group kw =
      ⟨st, tr ++ (sendToGroupRest st [] group kw).tr,
        (sendToGroupRest st [] group kw).err⟩ := by
  unfold sendToGroupRest
  by_cases hall : isAllGroups group = true
  · simp only [hall, if_true]
    exact allGroups_sl st tr kw
  · simp only [hall, if_false]
    cases group with
    | none => exact allGroups_sl st tr kw
    | some g =>
      by_cases hg : g < 1 ∨ 4 < g
      · simp [hg]
      · simp only [hg, if_false]
        cases hbt : dictGet st.group g.toNat with
        | none => simp
        | some bt =>
          by_cases hpg : kw.per_group
          · simp [hpg, sendCommandTr_eq]
          · simp only [hpg, if_false, Bool.false_eq_true]
            cases hc : kw.command with
            | none => simp
            | some cmd =>
              cases bt with
              | white => simp [sendCommandTr_eq]
              | rgbw =>
                by_cases hcbi : cmd = "color_by_int"
                · cases hcol : kw.color <;> simp [hcbi, hcol, sendCommandTr_eq]
                · simp [hcbi, sendCommandTr_eq]

/-- The `send_on=False` retry loop only appends to the trace and never
mutates the controller. -/
theorem loopNoOn_sl (n : Nat) (st : LedController) (tr : Trace)
    (group : Option Int) (kw : SendKwargs) :
    sendToGroupLoopNoOn n st tr group kw =
      ⟨st, tr ++ (sendToGroupLoopNoOn n st [] group kw).tr,
        (sendToGroupLoopNoOn n st [] group kw).err⟩ := by
  induction n generalizing tr with
  | zero => simp [sendToGroupLoopNoOn]
  | succ m ih =>
    simp only [sendToGroupLoopNoOn]
    rw [rest_sl st tr group kw, rest_sl st [] group kw]
    cases he : (sendToGroupRest st [] group kw).err with
    | some e => simp [he]
    | none =>
      simp only [he, List.nil_append]
      rw [ih (tr ++ (sendToGroupRest st [] group kw).tr),
        ih ((sendToGroupRest st [] group kw).tr)]
      simp

/-- The nested `on` call only appends to the trace and never mutates the
controller. -/
theorem onImpl_sl (st : LedController) (tr : Trace) (group : Option Int) :
    onImpl st tr group =
      ⟨st, tr ++ (onImpl st [] group).tr, (onImpl st [] group).err⟩ := by
  unfold onImpl
  by_cases hall : isAllGroups group = true <;>
    simp only [hall, if_true, if_false] <;>
    exact loopNoOn_sl _ st tr group _

/-- The `send_on=True` retry loop only appends to the trace and never
mutates the controller. -/
theorem loopOn_sl (n : Nat) (st : LedController) (tr : Trace)
    (group : Option Int) (kw : SendKwargs) :
    sendToGroupLoopOn n st tr group kw =
      ⟨st, tr ++ (sendToGroupLoopOn n st [] group kw).tr,
        (sendToGroupLoopOn n st [] group kw).err⟩ := by
  induction n generalizing tr with
  | zero => simp [sendToGroupLoopOn]
  | succ m ih =>
    simp only [sendToGroupLoopOn]
    rw [onImpl_sl st tr group, onImpl_sl st [] group]
    cases he : (onImpl st [] group).err with
    | some e => simp [he]
    | none =>
      simp only [he, List.nil_append]
      rw [rest_sl st (tr ++ (onImpl st [] group).tr) group kw,
        rest_sl st ((onImpl st [] group).tr) group kw]
      cases he2 : (sendToGroupRest st [] group kw).err with
      | some e => simp [he2]
      | none =>
        simp only [he2, List.nil_append]
        rw [ih (tr ++ (onImpl st [] group).tr ++ (sendToGroupRest st [] group kw).tr),
          ih ((onImpl st [] group).tr ++ (sendToGroupRest st [] group kw).tr)]
        simp

/-- Method `_send_to_group` only appends to the trace and never mutates the
controller. -/
theorem sendToGroup_sl (st : LedController) (tr : Trace) (group : Option Int)
    (kw : SendKwargs) :
    sendToGroup st tr group kw =
      ⟨st, tr ++ (sendToGroup st [] group kw).tr,
        (sendToGroup st [] group kw).err⟩ := by
  unfold sendToGroup
  by_cases hso : kw.send_on <;> simp only [hso, if_true, if_false, Bool.false_eq_true]
  · exact loopOn_sl _ st tr group kw
  · exact loopNoOn_sl _ st tr group kw

/-- Locality/state-preservation for a two-way `_send_to_group` dispatch. -/
theorem sl_ite (st : LedController) (tr : Trace) (c : Prop) [Decidable c]
    (g : Option Int) (k1 k2 : SendKwargs) :
    (if c then sendToGroup st tr g k1 else sendToGroup st tr g k2) =
      ⟨st, tr ++ (if c then sendToGroup st [] g k1 else sendToGroup st [] g k2).tr,
        (if c then sendToGroup st [] g k1 else sendToGroup st [] g k2).err⟩ := by
  by_cases h : c
  · simp only [if_pos h]
    exact sendToGroup_sl st tr g k1
  · simp only [if_neg h]
    exact sendToGroup_sl st tr g k2

/-- Method `on` only appends to the trace and never mutates the controller. -/
theorem on_sl (st : LedController) (tr : Trace) (g : Option Int) :
    LedController.on st tr g =
      ⟨st, tr ++ (LedController.on st [] g).tr, (LedController.on st [] g).err⟩ := by
  unfold LedController.on
  exact sl_ite st tr _ g _ _

/-- Method `off` only appends to the trace and never mutates the controller. -/
theorem off_sl (st : LedController) (tr : Trace) (g : Option Int) :
    LedController.off st tr g =
      ⟨st, tr ++ (LedController.off st [] g).tr, (LedController.off st [] g).err⟩ := by
  unfold LedController.off
  exact sl_ite st tr _ g _ _

/-- Method `white` only appends to the trace and never mutates the controller. -/
theorem white_sl (st : LedController) (tr : Trace) (g : Option Int) :
    LedController.white st tr g =
      ⟨st, tr ++ (LedController.white st [] g).tr, (LedController.white st [] g).err⟩ := by
  unfold LedController.white
  exact sl_ite st tr _ g _ _

/-- Every public operation only appends to the trace and never mutates the
controller. -/
theorem runOp_sl (st : LedController) (tr : Trace) (op : Op) :
    runOp st tr op =
      ⟨st, tr ++ (runOp st [] op).tr, (runOp st [] op).err⟩ := by
  have hsg := sendToGroup_sl st
  cases op with
  | «on» g =>
    simp only [runOp]
    exact on_sl st tr g
  | off g =>
    simp only [runOp]
    exact off_sl st tr g
  | white g =>
    simp only [runOp]
    exact white_sl st tr g
  | setColor c g =>
    simp only [runOp, LedController.set_color]
    cases c with
    | name s =>
      by_cases hw : s = "white"
      · simp only [hw, if_pos]
        exact white_sl st tr g
      · by_cases hlk : (RGBW_COMMANDS.lookup ("color_to_" ++ s)).isSome <;>
          simp [hw, hlk, hsg tr g]
    | rgb r gg b =>
      by_cases hb : r = 0 ∧ gg = 0 ∧ b = 0
      · simp only [hb, if_pos]
        exact off_sl st tr g
      · by_cases hw : r = 255 ∧ gg = 255 ∧ b = 255
        · simp only [if_neg hb, if_pos hw]
          exact white_sl st tr g
        · simp only [if_neg hb, if_neg hw]
          exact hsg tr g _
    | int n =>
      by_cases hn : n < 0 ∨ 255 < n <;> simp [hn, hsg tr g]
  | setBrightness b g =>
    simp only [runOp, LedController.set_brightness]
    rw [on_sl st tr g]
    cases he : (LedController.on st [] g).err with
    | some e => simp [he]
    | none => simp [he, sendCommandTr_eq]
  | brightnessUp g =>
    simp only [runOp, LedController.brightness_up]
    exact hsg tr g _
  | brightnessDown g =>
    simp only [runOp, LedController.brightness_down]
    exact hsg tr g _
  | cooler g =>
    simp only [runOp, LedController.cooler]
    exact hsg tr g _
  | warmer g =>
    simp only [runOp, LedController.warmer]
    exact hsg tr g _
  | disco g =>
    simp only [runOp, LedController.disco]
    exact hsg tr g _
  | discoFaster g =>
    simp only [runOp, LedController.disco_faster]
    exact hsg tr g _
  | discoSlower g =>
    simp only [runOp, LedController.disco_slower]
    exact hsg tr g _
  | nightmode g =>
    simp only [runOp, LedController.nightmode]
    have hst : (LedController.off st [] g).st = st := by rw [off_sl st [] g]
    rw [off_sl st tr g]
    cases he : (LedController.off st [] g).err with
    | some e => simp [he]
    | none =>
      by_cases hall : isAllGroups g = true
      · simp only [he, if_pos hall, List.nil_append, hst]
        by_cases hr : st.has_rgbw <;> by_cases hw : st.has_white <;>
          simp [hr, hw, hst, sendCommandTr_eq]
      · simp only [he, if_neg hall, List.nil_append, hst]
        rw [hsg (tr ++ (LedController.off st [] g).tr) g _,
          hsg ((LedController.off st [] g).tr) g _]
        simp

theorem isAllGroups_of_ge_one {g : Int} (hg1 : 1 ≤ g) : isAllGroups (some g) = false := by
  simp only [isAllGroups, beq_eq_false_iff_ne, ne_eq]
  omega

/-- The post-`send_on` body for a valid group in per-group mode: one
(optional) frame chosen by the group's bulb type, no exception, state
untouched. -/
theorem rest_perGroup (st : LedController) (tr : Trace) (g : Int)
    (kw : SendKwargs) (bt : BulbType) (hg1 : 1 ≤ g) (hg4 : g ≤ 4)
    (hbt : dictGet st.group g.toNat = some bt) (hpg : kw.per_group = true) :
    sendToGroupRest st tr (some g) kw =
      ⟨st, tr ++ groupFrame
        (match bt with
         | .white => kw.white_cmd.getD d4
         | .rgbw => kw.rgbw_cmd.getD d4) g, none⟩ := by
  unfold sendToGroupRest
  have hrange : ¬(g < 1 ∨ 4 < g) := by omega
  simp only [isAllGroups_of_ge_one hg1, Bool.false_eq_true, if_false, hrange,
    hbt, hpg, if_true, groupFrame, d4, sendCommandTr_eq]
  cases bt <;> simp

/-- The post-`send_on` body for a valid rgbw group in flat-command mode
(command not `color_by_int`): the `RGBW_COMMANDS` entry, no exception. -/
theorem rest_flat_rgbw (st : LedController) (tr : Trace) (g : Int)
    (kw : SendKwargs) (cmd : String) (hg1 : 1 ≤ g) (hg4 : g ≤ 4)
    (hbt : dictGet st.group g.toNat = some .rgbw) (hpg : kw.per_group = false)
    (hc : kw.command = some cmd) (hcbi : cmd ≠ "color_by_int") :
    sendToGroupRest st tr (some g) kw =
      ⟨st, tr ++ frameOf (RGBW_COMMANDS.lookup cmd), none⟩ := by
  unfold sendToGroupRest
  have hrange : ¬(g < 1 ∨ 4 < g) := by omega
  simp only [isAllGroups_of_ge_one hg1, Bool.false_eq_true, if_false, hrange,
    hbt, hpg, hc, hcbi, if_true, sendCommandTr_eq]

/-- The post-`send_on` body for a valid rgbw group with `color_by_int`:
the two-byte color tuple, no exception. -/
theorem rest_flat_cbi (st : LedController) (tr : Trace) (g : Int)
    (kw : SendKwargs) (col : Nat) (hg1 : 1 ≤ g) (hg4 : g ≤ 4)
    (hbt : dictGet st.group g.toNat = some .rgbw) (hpg : kw.per_group = false)
    (hc : kw.command = some "color_by_int") (hcol : kw.color = some col) :
    sendToGroupRest st tr (some g) kw =
      ⟨st, tr ++ frameOf (some [[0x40], packB col]), none⟩ := by
  unfold sendToGroupRest
  have hrange : ¬(g < 1 ∨ 4 < g) := by omega
  simp only [isAllGroups_of_ge_one hg1, Bool.false_eq_true, if_false, hrange,
    hbt, hpg, hc, hcol, if_true, sendCommandTr_eq]

/-- If every iteration body sends exactly `δ` and succeeds, the
`send_on=False` loop of `n` iterations sends `n` copies of `δ`. -/
theorem loopNoOn_const {st : LedController} {g : Option Int} {kw : SendKwargs}
    {δ : Trace}
    (h : ∀ tr, sendToGroupRest st tr g kw = ⟨st, tr ++ δ, none⟩) :
    ∀ n tr, sendToGroupLoopNoOn n st tr g kw = ⟨st, tr ++ repTrace n δ, none⟩ := by
  intro n
  induction n with
  | zero => intro tr; simp [sendToGroupLoopNoOn, repTrace]
  | succ m ih =>
    intro tr
    simp only [sendToGroupLoopNoOn]
    rw [h tr]
    simp only
    rw [ih (tr ++ δ)]
    simp [repTrace_succ]

/-- If the nested `on` sends `δon` and the iteration body sends `δ`, the
`send_on=True` loop of `n` iterations sends `n` copies of `δon ++ δ`. -/
theorem loopOn_const {st : LedController} {g : Option Int} {kw : SendKwargs}
    {δon δ : Trace}
    (hOn : ∀ tr, onImpl st tr g = ⟨st, tr ++ δon, none⟩)
    (h : ∀ tr, sendToGroupRest st tr g kw = ⟨st, tr ++ δ, none⟩) :
    ∀ n tr, sendToGroupLoopOn n st tr g kw = ⟨st, tr ++ repTrace n (δon ++ δ), none⟩ := by
  intro n
  induction n with
  | zero => intro tr; simp [sendToGroupLoopOn, repTrace]
  | succ m ih =>
    intro tr
    simp only [sendToGroupLoopOn]
    rw [hOn tr]
    simp only
    rw [h (tr ++ δon)]
    simp only
    rw [ih (tr ++ δon ++ δ)]
    simp [repTrace_succ]

/-- The nested `on` for a valid rgbw group: `repeat_commands` copies of the
group's rgbw on-frame. -/
theorem onImpl_rgbw (st : LedController) (tr : Trace) (g : Int)
    (hg1 : 1 ≤ g) (hg4 : g ≤ 4)
    (hbt : dictGet st.group g.toNat = some .rgbw) :
    onImpl st tr (some g) =
      ⟨st, tr ++ repTrace st.repeat_commands (groupFrame RGBW_GROUP_X_ON g), none⟩ := by
  unfold onImpl
  simp only [isAllGroups_of_ge_one hg1, Bool.false_eq_true, if_false]
  refine loopNoOn_const (fun tr0 => ?_) st.repeat_commands tr
  rw [rest_perGroup st tr0 g ON_KW_GROUP .rgbw hg1 hg4 hbt rfl]
  simp [ON_KW_GROUP]

/-- Method `on` on a valid rgbw group: `repeat_commands` copies of the group's
on-frame, no exception, state untouched. -/
theorem on_tr_rgbw (st : LedController) (tr : Trace) (g : Int)
    (hg1 : 1 ≤ g) (hg4 : g ≤ 4)
    (hbt : dictGet st.group g.toNat = some .rgbw) :
    LedController.on st tr (some g) =
      ⟨st, tr ++ repTrace st.repeat_commands (groupFrame RGBW_GROUP_X_ON g), none⟩ := by
  rw [on_eq_onImpl]
  exact onImpl_rgbw st tr g hg1 hg4 hbt

/-- Method `off` on a valid rgbw group: `repeat_commands` copies of the group's
off-frame, no exception, state untouched. -/
theorem off_tr_rgbw (st : LedController) (tr : Trace) (g : Int)
    (hg1 : 1 ≤ g) (hg4 : g ≤ 4)
    (hbt : dictGet st.group g.toNat = some .rgbw) :
    LedController.off st tr (some g) =
      ⟨st, tr ++ repTrace st.repeat_commands (groupFrame RGBW_GROUP_X_OFF g), none⟩ := by
  unfold LedController.off
  simp only [isAllGroups_of_ge_one hg1, Bool.false_eq_true, if_false]
  unfold sendToGroup
  simp only [Option.getD]
  refine loopNoOn_const (fun tr0 => ?_) st.repeat_commands tr
  rw [rest_perGroup st tr0 g _ .rgbw hg1 hg4 hbt rfl]
  simp

/-- Method `white` on a valid rgbw group: `repeat_commands` iterations, each being
the full `on` operation followed by the group's to-white frame. -/
theorem white_tr_rgbw (st : LedController) (tr : Trace) (g : Int)
    (hg1 : 1 ≤ g) (hg4 : g ≤ 4)
    (hbt : dictGet st.group g.toNat = some .rgbw) :
    LedController.white st tr (some g) =
      ⟨st, tr ++ repTrace st.repeat_commands
        (repTrace st.repeat_commands (groupFrame RGBW_GROUP_X_ON g) ++
          groupFrame RGBW_GROUP_X_TO_WHITE g), none⟩ := by
  unfold LedController.white
  simp only [isAllGroups_of_ge_one hg1, Bool.false_eq_true, if_false]
  unfold sendToGroup
  simp only [Option.getD]
  refine loopOn_const (fun tr0 => onImpl_rgbw st tr0 g hg1 hg4 hbt)
    (fun tr0 => ?_) st.repeat_commands tr
  rw [rest_perGroup st tr0 g _ .rgbw hg1 hg4 hbt rfl]
  simp

/-- A flat-command `_send_to_group` with auto-on against a valid rgbw
group: `n` iterations, each being the full `on` operation followed by the
command's table frame. -/
theorem sendToGroupFlatOn_rgbw (st : LedController) (tr : Trace) (g : Int)
    (kw : SendKwargs) (cmd : String) (n : Nat) (hg1 : 1 ≤ g) (hg4 : g ≤ 4)
    (hbt : dictGet st.group g.toNat = some .rgbw) (hpg : kw.per_group = false)
    (hso : kw.send_on = true) (hret : kw.retries.getD st.repeat_commands = n)
    (hc : kw.command = some cmd) (hcbi : cmd ≠ "color_by_int") :
    sendToGroup st tr (some g) kw =
      ⟨st, tr ++ repTrace n
        (repTrace st.repeat_commands (groupFrame RGBW_GROUP_X_ON g) ++
          frameOf (RGBW_COMMANDS.lookup cmd)), none⟩ := by
  unfold sendToGroup
  rw [hret]
  simp only [hso, if_true]
  exact loopOn_const (fun tr0 => onImpl_rgbw st tr0 g hg1 hg4 hbt)
    (fun tr0 => rest_flat_rgbw st tr0 g kw cmd hg1 hg4 hbt hpg hc hcbi) n tr

/-- A `color_by_int` `_send_to_group` with auto-on against a valid rgbw
group: `n` iterations, each being the full `on` operation followed by the
two-byte color frame. -/
theorem sendToGroupCbiOn_rgbw (st : LedController) (tr : Trace) (g : Int)
    (kw : SendKwargs) (col : Nat) (n : Nat) (hg1 : 1 ≤ g) (hg4 : g ≤ 4)
    (hbt : dictGet st.group g.toNat = some .rgbw) (hpg : kw.per_group = false)
    (hso : kw.send_on = true) (hret : kw.retries.getD st.repeat_commands = n)
    (hc : kw.command = some "color_by_int") (hcol : kw.color = some col) :
    sendToGroup st tr (some g) kw =
      ⟨st, tr ++ repTrace n
        (repTrace st.repeat_commands (groupFrame RGBW_GROUP_X_ON g) ++
          [[0x40, col, 0x55]]), none⟩ := by
  unfold sendToGroup
  rw [hret]
  simp only [hso, if_true]
  have hfr : frameOf (some [[0x40], packB col]) = [[0x40, col, 0x55]] := by
    simp [frameOf, encodeFrame, catBytes, packB]
  rw [← hfr]
  exact loopOn_const (fun tr0 => onImpl_rgbw st tr0 g hg1 hg4 hbt)
    (fun tr0 => rest_flat_cbi st tr0 g kw col hg1 hg4 hbt hpg hc hcol) n tr

/-- Method `disco` on a valid rgbw group: the full `on` operation, then the disco
frame exactly once (independently of `repeat_commands`). -/
theorem disco_tr_rgbw (st : LedController) (tr : Trace) (g : Int)
    (hg1 : 1 ≤ g) (hg4 : g ≤ 4)
    (hbt : dictGet st.group g.toNat = some .rgbw) :
    LedController.disco st tr (some g) =
      ⟨st, tr ++ (repTrace st.repeat_commands (groupFrame RGBW_GROUP_X_ON g) ++
        [[0x4d, 0x00, 0x55]]), none⟩ := by
  unfold LedController.disco
  rw [sendToGroupFlatOn_rgbw st tr g
    { command := some "disco", retries := some 1 } "disco" 1 hg1 hg4 hbt
    rfl rfl rfl rfl (by decide)]
  have hf : frameOf (RGBW_COMMANDS.lookup "disco") = [[0x4d, 0x00, 0x55]] := by decide
  rw [hf]
  simp [repTrace]

/-- Method `disco_faster` on a valid rgbw group: the full `on` operation, then the
frame exactly once. -/
theorem disco_faster_tr_rgbw (st : LedController) (tr : Trace) (g : Int)
    (hg1 : 1 ≤ g) (hg4 : g ≤ 4)
    (hbt : dictGet st.group g.toNat = some .rgbw) :
    LedController.disco_faster st tr (some g) =
      ⟨st, tr ++ (repTrace st.repeat_commands (groupFrame RGBW_GROUP_X_ON g) ++
        [[0x44, 0x00, 0x55]]), none⟩ := by
  unfold LedController.disco_faster
  rw [sendToGroupFlatOn_rgbw st tr g
    { command := some "disco_faster", retries := some 1 } "disco_faster" 1 hg1 hg4 hbt
    rfl rfl rfl rfl (by decide)]
  have hf : frameOf (RGBW_COMMANDS.lookup "disco_faster") = [[0x44, 0x00, 0x55]] := by decide
  rw [hf]
  simp [repTrace]

/-- Method `disco_slower` on a valid rgbw group: the full `on` operation, then the
frame exactly once. -/
theorem disco_slower_tr_rgbw (st : LedController) (tr : Trace) (g : Int)
    (hg1 : 1 ≤ g) (hg4 : g ≤ 4)
    (hbt : dictGet st.group g.toNat = some .rgbw) :
    LedController.disco_slower st tr (some g) =
      ⟨st, tr ++ (repTrace st.repeat_commands (groupFrame RGBW_GROUP_X_ON g) ++
        [[0x43, 0x00, 0x55]]), none⟩ := by
  unfold LedController.disco_slower
  rw [sendToGroupFlatOn_rgbw st tr g
    { command := some "disco_slower", retries := some 1 } "disco_slower" 1 hg1 hg4 hbt
    rfl rfl rfl rfl (by decide)]
  have hf : frameOf (RGBW_COMMANDS.lookup "disco_slower") = [[0x43, 0x00, 0x55]] := by decide
  rw [hf]
  simp [repTrace]

/-- Method `set_color` with an in-range int on a valid rgbw group:
`repeat_commands` iterations, each being the full `on` operation followed
by the color frame. -/
theorem set_color_int_tr_rgbw (st : LedController) (tr : Trace) (g : Int)
    (n : Int) (hg1 : 1 ≤ g) (hg4 : g ≤ 4)
    (hbt : dictGet st.group g.toNat = some .rgbw)
    (hn0 : 0 ≤ n) (hn255 : n ≤ 255) :
    LedController.set_color st tr (.int n) (some g) =
      ⟨st, tr ++ repTrace st.repeat_commands
        (repTrace st.repeat_commands (groupFrame RGBW_GROUP_X_ON g) ++
          [[0x40, n.toNat, 0x55]]), none⟩ := by
  unfold LedController.set_color
  have hrange : ¬(n < 0 ∨ 255 < n) := by omega
  simp only [hrange, if_false]
  exact sendToGroupCbiOn_rgbw st tr g _ n.toNat st.repeat_commands hg1 hg4 hbt
    rfl rfl rfl rfl rfl

/-- Method `set_color` with a non-black non-white RGB triple on a valid rgbw
group: `repeat_commands` iterations, each being the full `on` operation
followed by the hue frame. -/
theorem set_color_rgb_tr_rgbw (st : LedController) (tr : Trace) (g : Int)
    (r gg b : Nat) (hg1 : 1 ≤ g) (hg4 : g ≤ 4)
    (hbt : dictGet st.group g.toNat = some .rgbw)
    (hblack : ¬(r = 0 ∧ gg = 0 ∧ b = 0))
    (hwhite : ¬(r = 255 ∧ gg = 255 ∧ b = 255)) :
    LedController.set_color st tr (.rgb r gg b) (some g) =
      ⟨st, tr ++ repTrace st.repeat_commands
        (repTrace st.repeat_commands (groupFrame RGBW_GROUP_X_ON g) ++
          [[0x40, rgb_to_hue r gg b, 0x55]]), none⟩ := by
  unfold LedController.set_color
  simp only [hblack, hwhite, if_false]
  exact sendToGroupCbiOn_rgbw st tr g _ (rgb_to_hue r gg b) st.repeat_commands
    hg1 hg4 hbt rfl rfl rfl rfl rfl

/-- Method `set_brightness` on a valid rgbw group: the full `on` operation, then
the brightness frame exactly once (independently of `repeat_commands`). -/
theorem set_brightness_tr_rgbw (st : LedController) (tr : Trace) (g : Int)
    (arg : BrightnessArg) (hg1 : 1 ≤ g) (hg4 : g ≤ 4)
    (hbt : dictGet st.group g.toNat = some .rgbw) :
    LedController.set_brightness st tr arg (some g) =
      ⟨st, tr ++ (repTrace st.repeat_commands (groupFrame RGBW_GROUP_X_ON g) ++
        [[0x4e, (get_brightness_level (percentArg arg)).2.toNat, 0x55]]), none⟩ := by
  unfold LedController.set_brightness
  rw [on_tr_rgbw st tr g hg1 hg4 hbt]
  simp [sendCommandTr_eq, frameOf, encodeFrame, catBytes, packB]

/-- Method `nightmode` on a valid rgbw group: the full `off` operation, then the
nightmode frame exactly once (independently of `repeat_commands`). -/
theorem nightmode_tr_rgbw (st : LedController) (tr : Trace) (g : Int)
    (hg1 : 1 ≤ g) (hg4 : g ≤ 4)
    (hbt : dictGet st.group g.toNat = some .rgbw) :
    LedController.nightmode st tr (some g) =
      ⟨st, tr ++ (repTrace st.repeat_commands (groupFrame RGBW_GROUP_X_OFF g) ++
        groupFrame RGBW_GROUP_X_NIGHTMODE g), none⟩ := by
  unfold LedController.nightmode
  rw [off_tr_rgbw st tr g hg1 hg4 hbt]
  simp only [isAllGroups_of_ge_one hg1, Bool.false_eq_true, if_false]
  unfold sendToGroup
  simp only [Option.getD]
  rw [loopNoOn_const (fun tr0 => by
    rw [rest_perGroup st tr0 g _ .rgbw hg1 hg4 hbt rfl])
    1 (tr ++ repTrace st.repeat_commands (groupFrame RGBW_GROUP_X_OFF g))]
  simp [repTrace]

theorem countP_repTrace (p : Frame → Bool) (n : Nat) (l : Trace) :
    (repTrace n l).countP p = n * l.countP p := by
  induction n with
  | zero => simp [repTrace]
  | succ m ih => simp [repTrace, List.countP_append, ih, Nat.succ_mul, Nat.add_comm]

theorem countOp_append (t1 t2 : Trace) (b : Nat) :
    countOp (t1 ++ t2) b = countOp t1 b + countOp t2 b := by
  simp [countOp, List.countP_append]

theorem countOp_repTrace (n : Nat) (l : Trace) (b : Nat) :
    countOp (repTrace n l) b = n * countOp l b := by
  simp [countOp, countP_repTrace]

/-- The batch inner loop only appends to the trace and never mutates the
controller. -/
theorem runOps_sl (st : LedController) (tr : Trace) (cmds : List Op) :
    runOps st tr cmds =
      ⟨st, tr ++ (runOps st [] cmds).tr, (runOps st [] cmds).err⟩ := by
  induction cmds generalizing tr with
  | nil => simp [runOps]
  | cons op rest ih =>
    simp only [runOps]
    rw [runOp_sl st tr op, runOp_sl st [] op]
    cases he : (runOp st [] op).err with
    | some e => simp [he]
    | none =>
      simp only [he, List.nil_append]
      rw [ih (tr ++ (runOp st [] op).tr), ih ((runOp st [] op).tr)]
      simp

/-- The batch outer loop only appends to the trace and never mutates the
controller; when no round raises, the trace gain is the single-round gain
repeated. -/
theorem runRounds_sl (st : LedController) (tr : Trace) (cmds : List Op) (n : Nat) :
    (runRounds st tr cmds n).st = st ∧
    ((runOps st [] cmds).err = none →
      runRounds st tr cmds n = ⟨st, tr ++ repTrace n (runOps st [] cmds).tr, none⟩) := by
  induction n generalizing tr with
  | zero => simp [runRounds, repTrace]
  | succ m ih =>
    constructor
    · simp only [runRounds]
      rw [runOps_sl st tr cmds]
      cases he : (runOps st [] cmds).err with
      | some e => simp [he]
      | none =>
        simp only [he]
        exact (ih (tr ++ (runOps st [] cmds).tr)).1
    · intro he
      simp only [runRounds]
      rw [runOps_sl st tr cmds, he]
      simp only
      rw [(ih (tr ++ (runOps st [] cmds).tr)).2 he]
      simp [repTrace_succ]

theorem length_repTrace (n : Nat) (l : Trace) :
    (repTrace n l).length = n * l.length := by
  induction n with
  | zero => simp [repTrace]
  | succ m ih => simp [repTrace, ih, Nat.succ_mul, Nat.add_comm]

/-- Claim C1 (amended).  On a valid rgbw group, for every configured
`repeat_commands` value: `disco`, `disco_faster`, `disco_slower` transmit
their mode frame exactly once per call; `nightmode` transmits exactly one
frame beyond the `repeat_commands` frames of its embedded `off`; `on` and
`off` transmit exactly `repeat_commands` frames; `set_color` transmits the
color frame `repeat_commands` times; but `set_brightness` transmits the
brightness frame (opcode `0x4e`) exactly once, not `repeat_commands`
times. -/
theorem claim_C1_amended (st : LedController) (g : Int)
    (hg1 : 1 ≤ g) (hg4 : g ≤ 4)
    (hbt : dictGet st.group g.toNat = some .rgbw) :
    countOp (LedController.disco st [] (some g)).tr 0x4d = 1
  ∧ countOp (LedController.disco_faster st [] (some g)).tr 0x44 = 1
  ∧ countOp (LedController.disco_slower st [] (some g)).tr 0x43 = 1
  ∧ (LedController.nightmode st [] (some g)).tr.length = st.repeat_commands + 1
  ∧ (LedController.on st [] (some g)).tr.length = st.repeat_commands
  ∧ (LedController.off st [] (some g)).tr.length = st.repeat_commands
  ∧ (∀ n : Int, 0 ≤ n → n ≤ 255 →
      countOp (LedController.set_color st [] (.int n) (some g)).tr 0x40 =
        st.repeat_commands)
  ∧ (∀ arg : BrightnessArg,
      countOp (LedController.set_brightness st [] arg (some g)).tr 0x4e = 1) := by
  refine ⟨?_, ?_, ?_, ?_, ?_, ?_, ?_, ?_⟩
  · rw [disco_tr_rgbw st [] g hg1 hg4 hbt]
    interval_cases g <;>
      simp [countOp, List.countP_append, countP_repTrace, List.countP_cons,
        groupFrame, RGBW_GROUP_X_ON, frameOf, encodeFrame, catBytes]
  · rw [disco_faster_tr_rgbw st [] g hg1 hg4 hbt]
    interval_cases g <;>
      simp [countOp, List.countP_append, countP_repTrace, List.countP_cons,
        groupFrame, RGBW_GROUP_X_ON, frameOf, encodeFrame, catBytes]
  · rw [disco_slower_tr_rgbw st [] g hg1 hg4 hbt]
    interval_cases g <;>
      simp [countOp, List.countP_append, countP_repTrace, List.countP_cons,
        groupFrame, RGBW_GROUP_X_ON, frameOf, encodeFrame, catBytes]
  · rw [nightmode_tr_rgbw st [] g hg1 hg4 hbt]
    interval_cases g <;>
      simp [List.length_append, length_repTrace,
        groupFrame, RGBW_GROUP_X_OFF, RGBW_GROUP_X_NIGHTMODE, frameOf, encodeFrame, catBytes]
  · rw [on_tr_rgbw st [] g hg1 hg4 hbt]
    interval_cases g <;>
      simp [length_repTrace, groupFrame, RGBW_GROUP_X_ON, frameOf, encodeFrame, catBytes]
  · rw [off_tr_rgbw st [] g hg1 hg4 hbt]
    interval_cases g <;>
      simp [length_repTrace, groupFrame, RGBW_GROUP_X_OFF, frameOf, encodeFrame, catBytes]
  · intro n hn0 hn255
    rw [set_color_int_tr_rgbw st [] g n hg1 hg4 hbt hn0 hn255]
    interval_cases g <;>
      simp [countOp, List.countP_append, countP_repTrace, List.countP_cons,
        groupFrame, RGBW_GROUP_X_ON, frameOf, encodeFrame, catBytes]
  · intro arg
    rw [set_brightness_tr_rgbw st [] g arg hg1 hg4 hbt]
    interval_cases g <;>
      simp [countOp, List.countP_append, countP_repTrace, List.countP_cons,
        groupFrame, RGBW_GROUP_X_ON, frameOf, encodeFrame, catBytes]

/-- Claim C1 witness: the amended statement evaluated on the default
controller (`repeat_commands = 3`), group 1. -/
theorem claim_C1_witness :
    countOp (LedController.disco sampleController [] (some 1)).tr 0x4d = 1
  ∧ (LedController.on sampleController [] (some 1)).tr.length =
      sampleController.repeat_commands
  ∧ countOp (LedController.set_color sampleController [] (.int 5) (some 1)).tr 0x40 =
      sampleController.repeat_commands
  ∧ countOp (LedController.set_brightness sampleController [] (.int 50) (some 1)).tr
      0x4e = 1 := by
  obtain ⟨h1, h2, h3, h4, h5, h6, h7, h8⟩ :=
    claim_C1_amended sampleController 1 (by decide) (by decide) (by decide)
  exact ⟨h1, h5, h7 5 (by decide) (by decide), h8 (.int 50)⟩

/-- Claim C1 counterexample: with `repeat_commands = 3`, `set_brightness`
transmits the brightness frame once, not `repeat_commands` times, refuting
the claim as stated. -/
theorem claim_C1_counterexample :
    countOp (LedController.set_brightness sampleController [] (.int 50) (some 1)).tr
      0x4e = 1
  ∧ sampleController.repeat_commands = 3
  ∧ countOp (LedController.set_brightness sampleController [] (.int 50) (some 1)).tr
      0x4e ≠ sampleController.repeat_commands := by decide

/-- Claim C5 (amended).  On a valid rgbw group, `white`, `set_color` and
`set_brightness` run the full `on` operation - which itself transmits the
group-on frame `repeat_commands` times - immediately before the target
command in each retry iteration (so the on-frame precedes each target
frame exactly once only when `repeat_commands = 1`), while `on` and `off`
send no auto-on at all: their traces consist solely of their own frames. -/
theorem claim_C5_amended (st : LedController) (g : Int)
    (hg1 : 1 ≤ g) (hg4 : g ≤ 4)
    (hbt : dictGet st.group g.toNat = some .rgbw) :
    (LedController.white st [] (some g)).tr =
      repTrace st.repeat_commands
        (repTrace st.repeat_commands (groupFrame RGBW_GROUP_X_ON g) ++
          groupFrame RGBW_GROUP_X_TO_WHITE g)
  ∧ (∀ n : Int, 0 ≤ n → n ≤ 255 →
      (LedController.set_color st [] (.int n) (some g)).tr =
        repTrace st.repeat_commands
          (repTrace st.repeat_commands (groupFrame RGBW_GROUP_X_ON g) ++
            [[0x40, n.toNat, 0x55]]))
  ∧ (∀ arg : BrightnessArg,
      (LedController.set_brightness st [] arg (some g)).tr =
        repTrace st.repeat_commands (groupFrame RGBW_GROUP_X_ON g) ++
          [[0x4e, (get_brightness_level (percentArg arg)).2.toNat, 0x55]])
  ∧ (LedController.on st [] (some g)).tr =
      repTrace st.repeat_commands (groupFrame RGBW_GROUP_X_ON g)
  ∧ (LedController.off st [] (some g)).tr =
      repTrace st.repeat_commands (groupFrame RGBW_GROUP_X_OFF g) := by
  refine ⟨?_, ?_, ?_, ?_, ?_⟩
  · rw [white_tr_rgbw st [] g hg1 hg4 hbt]
    simp
  · intro n hn0 hn255
    rw [set_color_int_tr_rgbw st [] g n hg1 hg4 hbt hn0 hn255]
    simp
  · intro arg
    rw [set_brightness_tr_rgbw st [] g arg hg1 hg4 hbt]
    simp
  · rw [on_tr_rgbw st [] g hg1 hg4 hbt]
    simp
  · rw [off_tr_rgbw st [] g hg1 hg4 hbt]
    simp

/-- Claim C5 witness: the amended statement evaluated on the default
controller (`repeat_commands = 3`), group 1. -/
theorem claim_C5_witness :
    (LedController.white sampleController [] (some 1)).tr =
      repTrace 3 (repTrace 3 (groupFrame RGBW_GROUP_X_ON 1) ++
        groupFrame RGBW_GROUP_X_TO_WHITE 1)
  ∧ (LedController.on sampleController [] (some 1)).tr =
      repTrace 3 (groupFrame RGBW_GROUP_X_ON 1) := by
  obtain ⟨h1, h2, h3, h4, h5⟩ :=
    claim_C5_amended sampleController 1 (by decide) (by decide) (by decide)
  exact ⟨h1, h4⟩

/-- Claim C5 counterexample: with `repeat_commands = 3`, each retry
iteration of `white` is preceded by three on-frames, not one, refuting the
claim as stated (`[on, white-target]` repeated). -/
theorem claim_C5_counterexample :
    (LedController.white sampleController [] (some 1)).tr =
      [[0x45, 0x00, 0x55], [0x45, 0x00, 0x55], [0x45, 0x00, 0x55], [0xc5, 0x00, 0x55],
       [0x45, 0x00, 0x55], [0x45, 0x00, 0x55], [0x45, 0x00, 0x55], [0xc5, 0x00, 0x55],
       [0x45, 0x00, 0x55], [0x45, 0x00, 0x55], [0x45, 0x00, 0x55], [0xc5, 0x00, 0x55]]
  ∧ (LedController.white sampleController [] (some 1)).tr ≠
      repTrace 3 [[0x45, 0x00, 0x55], [0xc5, 0x00, 0x55]] := by decide

/-- Claim C7.  `batch_run` executes the whole operation list in order once
per round, `repeat_commands` rounds in total (outer-loop order), with the
client's retry count forced to 1 for the duration: when no operation
raises, the emitted trace is `repeat_commands` copies of the trace of one
in-order pass at retry count 1, and the original state is restored. -/
theorem claim_C7_theorem (st : LedController) (tr : Trace) (cmds : List Op)
    (h : (runOps { st with repeat_commands := 1 } [] cmds).err = none) :
    LedController.batch_run st tr cmds =
      ⟨st, tr ++ repTrace st.repeat_commands
        (runOps { st with repeat_commands := 1 } [] cmds).tr, none⟩ := by
  unfold LedController.batch_run
  dsimp only
  rw [(runRounds_sl { st with repeat_commands := 1 } tr cmds st.repeat_commands).2 h]

/-- Claim C7 witness: on the default controller (`repeat_commands = 3`),
batching `on(1)` and `off(2)` emits the interleaved order A,B,A,B,A,B. -/
theorem claim_C7_witness :
    (runOps { sampleController with repeat_commands := 1 } []
      [Op.on (some 1), Op.off (some 2)]).err = none
  ∧ LedController.batch_run sampleController [] [Op.on (some 1), Op.off (some 2)] =
      ⟨sampleController, [] ++ repTrace sampleController.repeat_commands
        (runOps { sampleController with repeat_commands := 1 } []
          [Op.on (some 1), Op.off (some 2)]).tr, none⟩
  ∧ (LedController.batch_run sampleController []
      [Op.on (some 1), Op.off (some 2)]).tr =
      [[0x45, 0x00, 0x55], [0x48, 0x00, 0x55], [0x45, 0x00, 0x55],
       [0x48, 0x00, 0x55], [0x45, 0x00, 0x55], [0x48, 0x00, 0x55]] :=
  ⟨by decide,
   claim_C7_theorem sampleController [] [Op.on (some 1), Op.off (some 2)] (by decide),
   by decide⟩

/-- Claim C2 (amended).  `batch_run` restores the client's original
`repeat_commands` (indeed the whole state) when every batched operation
completes without raising; but when an operation raises, the exception
propagates out of the plain (not `try/finally`) loop and the forced value
1 remains in effect. -/
theorem claim_C2_amended (st : LedController) (tr : Trace) (cmds : List Op) :
    ((LedController.batch_run st tr cmds).err = none →
      (LedController.batch_run st tr cmds).st = st)
  ∧ (∀ e, (LedController.batch_run st tr cmds).err = some e →
      (LedController.batch_run st tr cmds).st.repeat_commands = 1) := by
  unfold LedController.batch_run
  have hst := (runRounds_sl { st with repeat_commands := 1 } tr cmds
    st.repeat_commands).1
  cases herr : (runRounds { st with repeat_commands := 1 } tr cmds
      st.repeat_commands).err with
  | some e =>
    simp only [herr]
    constructor
    · intro h
      exact absurd h (by simp)
    · intro e2 h2
      rw [hst]
  | none =>
    simp only [herr]
    constructor
    · intro h
      rw [hst]
    · intro e2 h2
      exact absurd h2 (by simp)

/-- Claim C2 witness: on the default controller, a clean batch restores
the state, and a batch whose operation raises `InvalidGroup` leaves the
retry count forced to 1. -/
theorem claim_C2_witness :
    ((LedController.batch_run sampleController [] [Op.on (some 1)]).err = none
      ∧ (LedController.batch_run sampleController [] [Op.on (some 1)]).st =
          sampleController)
  ∧ ((LedController.batch_run sampleController [] [Op.on (some 5)]).err =
        some .invalidGroup
      ∧ (LedController.batch_run sampleController []
          [Op.on (some 5)]).st.repeat_commands = 1) :=
  ⟨⟨by decide,
    (claim_C2_amended sampleController [] [Op.on (some 1)]).1 (by decide)⟩,
   ⟨by decide,
    (claim_C2_amended sampleController [] [Op.on (some 5)]).2 .invalidGroup
      (by decide)⟩⟩

/-- Claim C2 counterexample: a batched `on(5)` raises, and afterwards the
client's `repeat_commands` is 1, not the original 3 - the forced value does
remain in effect, refuting the claim as stated. -/
theorem claim_C2_counterexample :
    sampleController.repeat_commands = 3
  ∧ (LedController.batch_run sampleController [] [Op.on (some 5)]).err =
      some .invalidGroup
  ∧ (LedController.batch_run sampleController []
      [Op.on (some 5)]).st.repeat_commands = 1
  ∧ (LedController.batch_run sampleController []
      [Op.on (some 5)]).st.repeat_commands ≠ sampleController.repeat_commands := by
  decide

/-- Claim C4.  The frame encoder is a pure transform producing exactly 3
bytes from a 1-3 byte command: a 1-byte command gets a zero pad and the
`0x55` terminator, a 2-byte command gets the terminator, and a 3-byte
command passes through unchanged. -/
theorem claim_C4_theorem (input : List (List Nat)) :
    ((catBytes input).length = 1 →
      encodeFrame input = catBytes input ++ [0x00, 0x55])
  ∧ ((catBytes input).length = 2 →
      encodeFrame input = catBytes input ++ [0x55])
  ∧ ((catBytes input).length = 3 → encodeFrame input = catBytes input)
  ∧ (1 ≤ (catBytes input).length → (catBytes input).length ≤ 3 →
      (encodeFrame input).length = 3) := by
  unfold encodeFrame
  refine ⟨?_, ?_, ?_, ?_⟩
  · intro h1
    simp [h1]
  · intro h2
    simp [h2]
  · intro h3
    simp [h3]
  · intro hlo hhi
    have h : (catBytes input).length = 1 ∨ (catBytes input).length = 2 ∨
        (catBytes input).length = 3 := by omega
    rcases h with h | h | h <;> simp [h]

/-- Claim C4 witness: the encoder evaluated at the spec's three shapes. -/
theorem claim_C4_witness :
    (catBytes [[0x42]]).length = 1
  ∧ encodeFrame [[0x42]] = catBytes [[0x42]] ++ [0x00, 0x55]
  ∧ (catBytes [[0x40], [0xb0]]).length = 2
  ∧ encodeFrame [[0x40], [0xb0]] = catBytes [[0x40], [0xb0]] ++ [0x55]
  ∧ (catBytes [[0x11], [0x22], [0x33]]).length = 3
  ∧ encodeFrame [[0x11], [0x22], [0x33]] = catBytes [[0x11], [0x22], [0x33]] :=
  ⟨by decide,
   (claim_C4_theorem [[0x42]]).1 (by decide),
   by decide,
   (claim_C4_theorem [[0x40], [0xb0]]).2.1 (by decide),
   by decide,
   (claim_C4_theorem [[0x11], [0x22], [0x33]]).2.2.1 (by decide)⟩

/-- Claim C3 (amended).  `set_brightness` clamps an integer percent to
0-100 and maps it to the device value `floor(2 + percent*25/100)`, which
lies in 2-27; a float at most 1 is interpreted as `int(f*100)` percent and
a float above 1 is truncated to `int(f)` percent, so `0.1` yields 10%,
`1.0` yields 100%, and `50.0` yields 50% (not 100%). -/
theorem claim_C3_amended :
    (∀ n : Int,
      (get_brightness_level n).1 = min 100 (max 0 n)
      ∧ (get_brightness_level n).2 =
          Int.floor ((2 : ℚ) + ((min 100 (max 0 n) : Int) : ℚ) * 25 / 100)
      ∧ 2 ≤ (get_brightness_level n).2 ∧ (get_brightness_level n).2 ≤ 27)
  ∧ get_brightness_level (-5) = get_brightness_level 0
  ∧ get_brightness_level 150 = get_brightness_level 100
  ∧ (∀ q : ℚ, ¬1 < q → floatPercent q = ratTrunc (q * 100))
  ∧ (∀ q : ℚ, 1 < q → floatPercent q = ratTrunc q)
  ∧ set_brightness_return (.float (1 / 10)) = 10
  ∧ set_brightness_return (.float 1) = 100
  ∧ set_brightness_return (.float 50) = 50 := by
  have hfq : ∀ q : ℚ, set_brightness_return (.float q) =
      (get_brightness_level (floatPercent q)).1 := fun q => rfl
  refine ⟨?_, by decide, by decide, ?_, ?_, ?_, ?_, ?_⟩
  · intro n
    unfold get_brightness_level
    refine ⟨rfl, ?_, by dsimp only; omega, by dsimp only; omega⟩
    dsimp only
    have hcast : ((2 : ℚ) + ((min 100 (max 0 n) : Int) : ℚ) * 25 / 100) =
        ((2 : ℤ) : ℚ) + (((min 100 (max 0 n) * 25 : Int)) : ℚ) / ((100 : ℕ) : ℚ) := by
      push_cast
      ring
    rw [hcast, Int.floor_int_add, Rat.floor_intCast_div_natCast]
    norm_num
  · intro q hq
    simp [floatPercent, hq]
  · intro q hq
    simp [floatPercent, hq]
  · rw [hfq]
    norm_num [floatPercent, ratTrunc, get_brightness_level]
  · rw [hfq]
    norm_num [floatPercent, ratTrunc, get_brightness_level]
  · rw [hfq]
    norm_num [floatPercent, ratTrunc, get_brightness_level]

/-- Claim C3 witness: the amended statement evaluated at percent 37 and at
the float one half. -/
theorem claim_C3_witness :
    ((get_brightness_level 37).1 = min 100 (max 0 37)
      ∧ (get_brightness_level 37).2 =
          Int.floor ((2 : ℚ) + ((min 100 (max 0 (37 : Int)) : Int) : ℚ) * 25 / 100)
      ∧ 2 ≤ (get_brightness_level 37).2 ∧ (get_brightness_level 37).2 ≤ 27)
  ∧ floatPercent (1 / 2) = ratTrunc ((1 / 2 : ℚ) * 100) :=
  ⟨claim_C3_amended.1 37, claim_C3_amended.2.2.2.1 (1 / 2) (by norm_num)⟩

/-- Claim C3 counterexample: `set_brightness(50.0)` yields 50 percent, not
the claimed 100 percent (`int(50.0) = 50`, then clamped to 50). -/
theorem claim_C3_counterexample :
    set_brightness_return (.float 50) = 50
  ∧ set_brightness_return (.float 50) ≠ 100 := by
  have h : set_brightness_return (.float 50) = 50 := by
    norm_num [set_brightness_return, percentArg, floatPercent, ratTrunc,
      get_brightness_level]
  refine ⟨h, ?_⟩
  rw [h]
  decide

theorem pyMod1_nonneg (q : ℚ) : 0 ≤ pyMod1 q := by
  have := Int.floor_le q
  unfold pyMod1
  linarith

theorem pyMod1_lt_one (q : ℚ) : pyMod1 q < 1 := by
  have := Int.lt_floor_add_one q
  unfold pyMod1
  linarith

theorem rgb_to_hue_le_255 (r g b : Nat) : rgb_to_hue r g b ≤ 255 := by
  unfold rgb_to_hue
  dsimp only
  have hlt : pyMod1 (hlsHue ((r : ℚ) / 255) ((g : ℚ) / 255) ((b : ℚ) / 255)
      * (-1) + 1 + 2 / 3) * 256 < 256 := by
    have := pyMod1_lt_one (hlsHue ((r : ℚ) / 255) ((g : ℚ) / 255) ((b : ℚ) / 255)
      * (-1) + 1 + 2 / 3)
    nlinarith [pyMod1_nonneg (hlsHue ((r : ℚ) / 255) ((g : ℚ) / 255) ((b : ℚ) / 255)
      * (-1) + 1 + 2 / 3)]
  have hfl : (Int.floor (pyMod1 (hlsHue ((r : ℚ) / 255) ((g : ℚ) / 255)
      ((b : ℚ) / 255) * (-1) + 1 + 2 / 3) * 256)) < 256 := by
    rw [Int.floor_lt]
    push_cast
    exact hlt
  omega

/-- Claim C9.  `set_color` routes the RGB triple (0,0,0) to `off` and
(255,255,255) to `white` without invoking the hue converter; every other
triple goes through `rgb_to_hue` and out via the `color_by_int` command,
with the converted hue a valid byte. -/
theorem claim_C9_theorem (st : LedController) (tr : Trace) (group : Option Int) :
    LedController.set_color st tr (.rgb 0 0 0) group = LedController.off st tr group
  ∧ LedController.set_color st tr (.rgb 255 255 255) group =
      LedController.white st tr group
  ∧ (∀ r g b : Nat, ¬(r = 0 ∧ g = 0 ∧ b = 0) → ¬(r = 255 ∧ g = 255 ∧ b = 255) →
      LedController.set_color st tr (.rgb r g b) group =
        sendToGroup st tr group
          { command := some "color_by_int", color := some (rgb_to_hue r g b) }
      ∧ rgb_to_hue r g b ≤ 255) := by
  refine ⟨by simp [LedController.set_color], by simp [LedController.set_color],
    fun r g b hb hw => ⟨?_, rgb_to_hue_le_255 r g b⟩⟩
  simp only [LedController.set_color, if_neg hb, if_neg hw]

/-- Claim C9 witness: black routes to `off` and the triple (10,20,30)
routes through the converter on the default controller. -/
theorem claim_C9_witness :
    LedController.set_color sampleController [] (.rgb 0 0 0) (some 1) =
      LedController.off sampleController [] (some 1)
  ∧ LedController.set_color sampleController [] (.rgb 10 20 30) (some 1) =
      sendToGroup sampleController [] (some 1)
        { command := some "color_by_int", color := some (rgb_to_hue 10 20 30) }
  ∧ rgb_to_hue 10 20 30 ≤ 255 := by
  obtain ⟨h1, h2, h3⟩ := claim_C9_theorem sampleController [] (some 1)
  obtain ⟨ha, hb⟩ := h3 10 20 30 (by decide) (by decide)
  exact ⟨h1, ha, hb⟩

theorem color_to_ne_cbi (s : String) : ("color_to_" ++ s) ≠ "color_by_int" := by
  intro h
  have h2 := congrArg String.data h
  simp [String.data_append] at h2

theorem isAllGroups_of_bad {g : Int} (h0 : g ≠ 0) : isAllGroups (some g) = false := by
  simp only [isAllGroups, beq_eq_false_iff_ne, ne_eq]
  exact h0

/-- An out-of-range nonzero group makes the iteration body raise
`InvalidGroup` before any send. -/
theorem rest_badGroup (st : LedController) (tr : Trace) (g : Int)
    (kw : SendKwargs) (h0 : g ≠ 0) (hr : g < 1 ∨ 4 < g) :
    sendToGroupRest st tr (some g) kw = ⟨st, tr, some .invalidGroup⟩ := by
  unfold sendToGroupRest
  simp [isAllGroups_of_bad h0, hr]

theorem loopNoOn_badGroup (st : LedController) (tr : Trace) (g : Int)
    (kw : SendKwargs) (n : Nat) (h0 : g ≠ 0) (hr : g < 1 ∨ 4 < g)
    (hn : 1 ≤ n) :
    sendToGroupLoopNoOn n st tr (some g) kw = ⟨st, tr, some .invalidGroup⟩ := by
  cases n with
  | zero => omega
  | succ m =>
    simp only [sendToGroupLoopNoOn]
    rw [rest_badGroup st tr g kw h0 hr]

theorem onImpl_badGroup (st : LedController) (tr : Trace) (g : Int)
    (h0 : g ≠ 0) (hr : g < 1 ∨ 4 < g) (hrep : 1 ≤ st.repeat_commands) :
    onImpl st tr (some g) = ⟨st, tr, some .invalidGroup⟩ := by
  unfold onImpl
  simp only [isAllGroups_of_bad h0, Bool.false_eq_true, if_false]
  exact loopNoOn_badGroup st tr g ON_KW_GROUP st.repeat_commands h0 hr hrep

theorem loopOn_badGroup (st : LedController) (tr : Trace) (g : Int)
    (kw : SendKwargs) (n : Nat) (h0 : g ≠ 0) (hr : g < 1 ∨ 4 < g)
    (hrep : 1 ≤ st.repeat_commands) (hn : 1 ≤ n) :
    sendToGroupLoopOn n st tr (some g) kw = ⟨st, tr, some .invalidGroup⟩ := by
  cases n with
  | zero => omega
  | succ m =>
    simp only [sendToGroupLoopOn]
    rw [onImpl_badGroup st tr g h0 hr hrep]

/-- An out-of-range nonzero group makes `_send_to_group` raise
`InvalidGroup` with the trace unchanged, whatever the command. -/
theorem sendToGroup_badGroup (st : LedController) (tr : Trace) (g : Int)
    (kw : SendKwargs) (h0 : g ≠ 0) (hr : g < 1 ∨ 4 < g)
    (hrep : 1 ≤ st.repeat_commands)
    (hn : 1 ≤ kw.retries.getD st.repeat_commands) :
    sendToGroup st tr (some g) kw = ⟨st, tr, some .invalidGroup⟩ := by
  unfold sendToGroup
  by_cases hso : kw.send_on = true
  · simp only [hso, if_true]
    exact loopOn_badGroup st tr g kw _ h0 hr hrep hn
  · simp only [hso, if_false, Bool.false_eq_true]
    exact loopNoOn_badGroup st tr g kw _ h0 hr hn

/-- With the command present (and a color when the command is
`color_by_int`), `_send_to_all_groups` never raises and never mutates. -/
theorem allGroups_ok (st : LedController) (tr : Trace) (kw : SendKwargs)
    (cmd : String) (hcmd : kw.command = some cmd)
    (hcbi : cmd = "color_by_int" → kw.color.isSome = true) :
    ∃ t, sendToAllGroups st tr kw = ⟨st, t, none⟩ := by
  unfold sendToAllGroups
  rw [hcmd]
  by_cases hc : cmd = "color_by_int"
  · obtain ⟨col, hcol⟩ := Option.isSome_iff_exists.mp (hcbi hc)
    by_cases hrg : st.has_rgbw <;> simp [hc, hcol, hrg]
  · by_cases hrg : st.has_rgbw <;> simp [hc, hrg]

theorem rest_all_ok (st : LedController) (tr : Trace) (g : Option Int)
    (kw : SendKwargs) (cmd : String) (hall : isAllGroups g = true)
    (hcmd : kw.command = some cmd)
    (hcbi : cmd = "color_by_int" → kw.color.isSome = true) :
    ∃ t, sendToGroupRest st tr g kw = ⟨st, t, none⟩ := by
  unfold sendToGroupRest
  cases g with
  | none => simpa using allGroups_ok st tr kw cmd hcmd hcbi
  | some gv =>
    simp only [hall, if_true]
    exact allGroups_ok st tr kw cmd hcmd hcbi

theorem loopNoOn_all_ok (st : LedController) (g : Option Int)
    (kw : SendKwargs) (cmd : String) (hall : isAllGroups g = true)
    (hcmd : kw.command = some cmd)
    (hcbi : cmd = "color_by_int" → kw.color.isSome = true) :
    ∀ n tr, ∃ t, sendToGroupLoopNoOn n st tr g kw = ⟨st, t, none⟩ := by
  intro n
  induction n with
  | zero => intro tr; exact ⟨tr, rfl⟩
  | succ m ih =>
    intro tr
    obtain ⟨t1, h1⟩ := rest_all_ok st tr g kw cmd hall hcmd hcbi
    obtain ⟨t2, h2⟩ := ih t1
    refine ⟨t2, ?_⟩
    simp only [sendToGroupLoopNoOn]
    rw [h1]
    exact h2

theorem onImpl_all_ok (st : LedController) (tr : Trace) (g : Option Int)
    (hall : isAllGroups g = true) :
    ∃ t, onImpl st tr g = ⟨st, t, none⟩ := by
  unfold onImpl
  simp only [hall, if_true]
  exact loopNoOn_all_ok st g ON_KW_ALL "all_on" hall rfl (by decide)
    st.repeat_commands tr

theorem loopOn_all_ok (st : LedController) (g : Option Int)
    (kw : SendKwargs) (cmd : String) (hall : isAllGroups g = true)
    (hcmd : kw.command = some cmd)
    (hcbi : cmd = "color_by_int" → kw.color.isSome = true) :
    ∀ n tr, ∃ t, sendToGroupLoopOn n st tr g kw = ⟨st, t, none⟩ := by
  intro n
  induction n with
  | zero => intro tr; exact ⟨tr, rfl⟩
  | succ m ih =>
    intro tr
    obtain ⟨t0, h0⟩ := onImpl_all_ok st tr g hall
    obtain ⟨t1, h1⟩ := rest_all_ok st t0 g kw cmd hall hcmd hcbi
    obtain ⟨t2, h2⟩ := ih t1
    refine ⟨t2, ?_⟩
    simp only [sendToGroupLoopOn]
    rw [h0]
    simp only
    rw [h1]
    exact h2

/-- With the command present (and a color when needed), `_send_to_group`
targeted at "all groups" never raises and never mutates. -/
theorem sendToGroup_all_ok (st : LedController) (tr : Trace) (g : Option Int)
    (kw : SendKwargs) (cmd : String) (hall : isAllGroups g = true)
    (hcmd : kw.command = some cmd)
    (hcbi : cmd = "color_by_int" → kw.color.isSome = true) :
    ∃ t, sendToGroup st tr g kw = ⟨st, t, none⟩ := by
  unfold sendToGroup
  by_cases hso : kw.send_on = true
  · simp only [hso, if_true]
    exact loopOn_all_ok st g kw cmd hall hcmd hcbi _ tr
  · simp only [hso, if_false, Bool.false_eq_true]
    exact loopNoOn_all_ok st g kw cmd hall hcmd hcbi _ tr

theorem on_badGroup (st : LedController) (tr : Trace) (gv : Int)
    (h0 : gv ≠ 0) (hr : gv < 1 ∨ 4 < gv) (hrep : 1 ≤ st.repeat_commands) :
    LedController.on st tr (some gv) = ⟨st, tr, some .invalidGroup⟩ := by
  unfold LedController.on
  simp only [isAllGroups_of_bad h0, Bool.false_eq_true, if_false]
  exact sendToGroup_badGroup st tr gv ON_KW_GROUP h0 hr hrep
    (by simpa [ON_KW_GROUP] using hrep)

theorem off_badGroup (st : LedController) (tr : Trace) (gv : Int)
    (h0 : gv ≠ 0) (hr : gv < 1 ∨ 4 < gv) (hrep : 1 ≤ st.repeat_commands) :
    LedController.off st tr (some gv) = ⟨st, tr, some .invalidGroup⟩ := by
  unfold LedController.off
  simp only [isAllGroups_of_bad h0, Bool.false_eq_true, if_false]
  exact sendToGroup_badGroup st tr gv _ h0 hr hrep (by simpa using hrep)

theorem white_badGroup (st : LedController) (tr : Trace) (gv : Int)
    (h0 : gv ≠ 0) (hr : gv < 1 ∨ 4 < gv) (hrep : 1 ≤ st.repeat_commands) :
    LedController.white st tr (some gv) = ⟨st, tr, some .invalidGroup⟩ := by
  unfold LedController.white
  simp only [isAllGroups_of_bad h0, Bool.false_eq_true, if_false]
  exact sendToGroup_badGroup st tr gv _ h0 hr hrep (by simpa using hrep)

theorem on_all_ok (st : LedController) (tr : Trace) (g : Option Int)
    (hall : isAllGroups g = true) :
    ∃ t, LedController.on st tr g = ⟨st, t, none⟩ := by
  unfold LedController.on
  simp only [hall, if_true]
  exact sendToGroup_all_ok st tr g ON_KW_ALL "all_on" hall rfl (by decide)

theorem off_all_ok (st : LedController) (tr : Trace) (g : Option Int)
    (hall : isAllGroups g = true) :
    ∃ t, LedController.off st tr g = ⟨st, t, none⟩ := by
  unfold LedController.off
  simp only [hall, if_true]
  exact sendToGroup_all_ok st tr g _ "all_off" hall rfl (by decide)

theorem white_all_ok (st : LedController) (tr : Trace) (g : Option Int)
    (hall : isAllGroups g = true) :
    ∃ t, LedController.white st tr g = ⟨st, t, none⟩ := by
  unfold LedController.white
  simp only [hall, if_true]
  exact sendToGroup_all_ok st tr g _ "all_white" hall rfl (by decide)

/-- Claim C6.  For every public operation (with otherwise valid
arguments), a group outside 1-4 other than 0 raises `InvalidGroup`
synchronously with no frame transmitted and the state untouched, while a
group of `None` or 0 is routed to "all groups" and does not raise. -/
theorem claim_C6_theorem (st : LedController) (tr : Trace) (op : Op)
    (hrep : 1 ≤ st.repeat_commands) (hargs : op.argsValid) :
    (∀ gv : Int, op.groupArg = some gv → gv ≠ 0 → (gv < 1 ∨ 4 < gv) →
      runOp st tr op = ⟨st, tr, some .invalidGroup⟩)
  ∧ ((op.groupArg = none ∨ op.groupArg = some 0) →
      ∃ t, runOp st tr op = ⟨st, t, none⟩) := by
  have hallOf : ∀ g : Option Int, (g = none ∨ g = some 0) → isAllGroups g = true := by
    intro g h
    rcases h with h | h <;> simp [h, isAllGroups]
  cases op with
  | «on» g =>
    refine ⟨fun gv hg h0 hr => ?_, fun hall => ?_⟩
    · simp only [Op.groupArg] at hg
      subst hg
      exact on_badGroup st tr gv h0 hr hrep
    · simp only [Op.groupArg] at hall
      exact on_all_ok st tr g (hallOf g hall)
  | off g =>
    refine ⟨fun gv hg h0 hr => ?_, fun hall => ?_⟩
    · simp only [Op.groupArg] at hg
      subst hg
      exact off_badGroup st tr gv h0 hr hrep
    · simp only [Op.groupArg] at hall
      exact off_all_ok st tr g (hallOf g hall)
  | white g =>
    refine ⟨fun gv hg h0 hr => ?_, fun hall => ?_⟩
    · simp only [Op.groupArg] at hg
      subst hg
      exact white_badGroup st tr gv h0 hr hrep
    · simp only [Op.groupArg] at hall
      exact white_all_ok st tr g (hallOf g hall)
  | setColor c g =>
    refine ⟨fun gv hg h0 hr => ?_, fun hall => ?_⟩
    · simp only [Op.groupArg] at hg
      subst hg
      simp only [runOp, LedController.set_color]
      cases c with
      | name s =>
        by_cases hs : s = "white"
        · simp only [hs, if_pos]
          exact white_badGroup st tr gv h0 hr hrep
        · rcases hargs with h | h
          · exact absurd h hs
          · simp only [if_neg hs, h, if_true]
            exact sendToGroup_badGroup st tr gv _ h0 hr hrep (by simpa using hrep)
      | rgb r gg b =>
        by_cases hb : r = 0 ∧ gg = 0 ∧ b = 0
        · simp only [hb, if_pos]
          exact off_badGroup st tr gv h0 hr hrep
        · by_cases hw : r = 255 ∧ gg = 255 ∧ b = 255
          · simp only [if_neg hb, hw, if_pos]
            exact white_badGroup st tr gv h0 hr hrep
          · simp only [if_neg hb, if_neg hw]
            exact sendToGroup_badGroup st tr gv _ h0 hr hrep (by simpa using hrep)
      | int n =>
        obtain ⟨hn0, hn255⟩ := hargs
        have hnr : ¬(n < 0 ∨ 255 < n) := by omega
        simp only [if_neg hnr]
        exact sendToGroup_badGroup st tr gv _ h0 hr hrep (by simpa using hrep)
    · simp only [Op.groupArg] at hall
      have hall2 := hallOf g hall
      simp only [runOp, LedController.set_color]
      cases c with
      | name s =>
        by_cases hs : s = "white"
        · simp only [hs, if_pos]
          exact white_all_ok st tr g hall2
        · rcases hargs with h | h
          · exact absurd h hs
          · simp only [if_neg hs, h, if_true]
            exact sendToGroup_all_ok st tr g _ ("color_to_" ++ s) hall2 rfl
              (fun hcon => absurd hcon (color_to_ne_cbi s))
      | rgb r gg b =>
        by_cases hb : r = 0 ∧ gg = 0 ∧ b = 0
        · simp only [hb, if_pos]
          exact off_all_ok st tr g hall2
        · by_cases hw : r = 255 ∧ gg = 255 ∧ b = 255
          · simp only [if_neg hb, hw, if_pos]
            exact white_all_ok st tr g hall2
          · simp only [if_neg hb, if_neg hw]
            exact sendToGroup_all_ok st tr g _ "color_by_int" hall2 rfl
              (fun _ => rfl)
      | int n =>
        obtain ⟨hn0, hn255⟩ := hargs
        have hnr : ¬(n < 0 ∨ 255 < n) := by omega
        simp only [if_neg hnr]
        exact sendToGroup_all_ok st tr g _ "color_by_int" hall2 rfl (fun _ => rfl)
  | setBrightness b g =>
    refine ⟨fun gv hg h0 hr => ?_, fun hall => ?_⟩
    · simp only [Op.groupArg] at hg
      subst hg
      simp only [runOp, LedController.set_brightness]
      rw [on_badGroup st tr gv h0 hr hrep]
    · simp only [Op.groupArg] at hall
      obtain ⟨t, ht⟩ := on_all_ok st tr g (hallOf g hall)
      simp only [runOp, LedController.set_brightness]
      rw [ht]
      exact ⟨_, rfl⟩
  | brightnessUp g =>
    refine ⟨fun gv hg h0 hr => ?_, fun hall => ?_⟩
    · simp only [Op.groupArg] at hg
      subst hg
      simp only [runOp, LedController.brightness_up]
      exact sendToGroup_badGroup st tr gv _ h0 hr hrep (by simpa using hrep)
    · simp only [Op.groupArg] at hall
      simp only [runOp, LedController.brightness_up]
      exact sendToGroup_all_ok st tr g _ "brightness_up" (hallOf g hall) rfl
        (by decide)
  | brightnessDown g =>
    refine ⟨fun gv hg h0 hr => ?_, fun hall => ?_⟩
    · simp only [Op.groupArg] at hg
      subst hg
      simp only [runOp, LedController.brightness_down]
      exact sendToGroup_badGroup st tr gv _ h0 hr hrep (by simpa using hrep)
    · simp only [Op.groupArg] at hall
      simp only [runOp, LedController.brightness_down]
      exact sendToGroup_all_ok st tr g _ "brightness_down" (hallOf g hall) rfl
        (by decide)
  | cooler g =>
    refine ⟨fun gv hg h0 hr => ?_, fun hall => ?_⟩
    · simp only [Op.groupArg] at hg
      subst hg
      simp only [runOp, LedController.cooler]
      exact sendToGroup_badGroup st tr gv _ h0 hr hrep (by simpa using hrep)
    · simp only [Op.groupArg] at hall
      simp only [runOp, LedController.cooler]
      exact sendToGroup_all_ok st tr g _ "cooler" (hallOf g hall) rfl (by decide)
  | warmer g =>
    refine ⟨fun gv hg h0 hr => ?_, fun hall => ?_⟩
    · simp only [Op.groupArg] at hg
      subst hg
      simp only [runOp, LedController.warmer]
      exact sendToGroup_badGroup st tr gv _ h0 hr hrep (by simpa using hrep)
    · simp only [Op.groupArg] at hall
      simp only [runOp, LedController.warmer]
      exact sendToGroup_all_ok st tr g _ "warmer" (hallOf g hall) rfl (by decide)
  | disco g =>
    refine ⟨fun gv hg h0 hr => ?_, fun hall => ?_⟩
    · simp only [Op.groupArg] at hg
      subst hg
      simp only [runOp, LedController.disco]
      exact sendToGroup_badGroup st tr gv _ h0 hr hrep (by simp)
    · simp only [Op.groupArg] at hall
      simp only [runOp, LedController.disco]
      exact sendToGroup_all_ok st tr g _ "disco" (hallOf g hall) rfl (by decide)
  | discoFaster g =>
    refine ⟨fun gv hg h0 hr => ?_, fun hall => ?_⟩
    · simp only [Op.groupArg] at hg
      subst hg
      simp only [runOp, LedController.disco_faster]
      exact sendToGroup_badGroup st tr gv _ h0 hr hrep (by simp)
    · simp only [Op.groupArg] at hall
      simp only [runOp, LedController.disco_faster]
      exact sendToGroup_all_ok st tr g _ "disco_faster" (hallOf g hall) rfl
        (by decide)
  | discoSlower g =>
    refine ⟨fun gv hg h0 hr => ?_, fun hall => ?_⟩
    · simp only [Op.groupArg] at hg
      subst hg
      simp only [runOp, LedController.disco_slower]
      exact sendToGroup_badGroup st tr gv _ h0 hr hrep (by simp)
    · simp only [Op.groupArg] at hall
      simp only [runOp, LedController.disco_slower]
      exact sendToGroup_all_ok st tr g _ "disco_slower" (hallOf g hall) rfl
        (by decide)
  | nightmode g =>
    refine ⟨fun gv hg h0 hr => ?_, fun hall => ?_⟩
    · simp only [Op.groupArg] at hg
      subst hg
      simp only [runOp, LedController.nightmode]
      rw [off_badGroup st tr gv h0 hr hrep]
    · simp only [Op.groupArg] at hall
      have hall2 := hallOf g hall
      obtain ⟨t, ht⟩ := off_all_ok st tr g hall2
      simp only [runOp, LedController.nightmode]
      rw [ht]
      simp only [hall2, if_true]
      exact ⟨_, rfl⟩

/-- Claim C6 witness: on the default controller, `white(5)` raises
`InvalidGroup` with nothing sent, and `white(0)` / `on(None)` succeed. -/
theorem claim_C6_witness :
    runOp sampleController [] (.white (some 5)) =
      ⟨sampleController, [], some .invalidGroup⟩
  ∧ (∃ t, runOp sampleController [] (.white (some 0)) = ⟨sampleController, t, none⟩)
  ∧ (∃ t, runOp sampleController [] (.on none) = ⟨sampleController, t, none⟩) := by
  refine ⟨?_, ?_, ?_⟩
  · exact (claim_C6_theorem sampleController [] (.white (some 5)) (by decide)
      trivial).1 5 rfl (by decide) (by decide)
  · exact (claim_C6_theorem sampleController [] (.white (some 0)) (by decide)
      trivial).2 (Or.inr rfl)
  · exact (claim_C6_theorem sampleController [] (.on none) (by decide)
      trivial).2 (Or.inl rfl)

/-- A paced send goes out at `max(now, last + pause)`: immediately if the
pause has already elapsed, else exactly at the end of the enforced
pause. -/
theorem sendCommandPaced_eq (c : PacingController) (clk : WallClock) :
    sendCommandPaced c clk =
      ({ c with
          last_command_at := max clk.now (c.last_command_at + c.pause_between_commands) },
        ⟨max clk.now (c.last_command_at + c.pause_between_commands)⟩,
        max clk.now (c.last_command_at + c.pause_between_commands)) := by
  unfold sendCommandPaced
  by_cases h : clk.now - c.last_command_at < c.pause_between_commands
  · have heq : clk.now + (c.pause_between_commands - (clk.now - c.last_command_at)) =
        c.last_command_at + c.pause_between_commands := by ring
    have hm : max clk.now (c.last_command_at + c.pause_between_commands) =
        c.last_command_at + c.pause_between_commands := max_eq_right (by linarith)
    simp only [h, if_true, heq, hm]
  · have hm : max clk.now (c.last_command_at + c.pause_between_commands) =
        clk.now := max_eq_left (by linarith)
    simp only [h, if_false, Bool.false_eq_true, hm]

/-- The timestamps a controller emits are spaced by at least its pause:
the first is at least `last + pause`, consecutive ones at least `pause`
apart, and the controller's final `last_command_at` is the last timestamp
(or unchanged when nothing was sent); the pause is never mutated. -/
theorem runPacedSends_spec : ∀ (ds : List ℚ) (c : PacingController)
    (clk : WallClock) (c2 : PacingController) (clk2 : WallClock) (ts : List ℚ),
    runPacedSends c clk ds = (c2, clk2, ts) →
    c2.pause_between_commands = c.pause_between_commands
    ∧ List.Chain' (fun a b => a + c.pause_between_commands ≤ b) ts
    ∧ (∀ t ∈ ts.head?, c.last_command_at + c.pause_between_commands ≤ t)
    ∧ c2.last_command_at = ts.getLastD c.last_command_at := by
  intro ds
  induction ds with
  | nil =>
    intro c clk c2 clk2 ts h
    simp only [runPacedSends, Prod.mk.injEq] at h
    obtain ⟨h1, h2, h3⟩ := h
    subst h1
    subst h3
    simp
  | cons d rest ih =>
    intro c clk c2 clk2 ts h
    simp only [runPacedSends] at h
    rw [sendCommandPaced_eq] at h
    rcases hrest : runPacedSends
        { c with
            last_command_at := max (clk.now + d) (c.last_command_at + c.pause_between_commands) }
        ⟨max (clk.now + d) (c.last_command_at + c.pause_between_commands)⟩ rest
      with ⟨c3, clk3, ts3⟩
    rw [hrest] at h
    simp only [Prod.mk.injEq] at h
    obtain ⟨h1, h2, h3⟩ := h
    subst h1
    subst h3
    obtain ⟨hp3, hch3, hhd3, hlast3⟩ := ih _ _ _ _ _ hrest
    refine ⟨hp3, ?_, ?_, ?_⟩
    · rw [List.chain'_cons']
      exact ⟨fun b hb => by simpa using hhd3 b hb, hch3⟩
    · intro t ht
      simp only [List.head?_cons, Option.mem_def, Option.some.injEq] at ht
      subst ht
      exact le_max_right _ _
    · cases ts3 with
      | nil => simpa using hlast3
      | cons a l => simpa [List.getLast?_cons_cons] using hlast3

/-- Claim C8.  Two consecutive `Pool.execute` calls, even to two different
controller indices, emit frames whose timestamps are spaced by at least
the shared minimum pause: the pool's timestamp is copied into the selected
controller before the command and back after it, so the concatenated
timestamp stream of the two calls is a chain with gaps of at least `p`. -/
theorem claim_C8_theorem (pool : PacingPool) (clk : WallClock) (i j : Nat)
    (d1 d2 : List ℚ) (p : ℚ)
    (hp : ∀ c ∈ pool.controllers, c.pause_between_commands = p)
    (pool1 pool2 : PacingPool) (clk1 clk2 : WallClock) (ts1 ts2 : List ℚ)
    (h1 : pool.execute clk i d1 = some (pool1, clk1, ts1))
    (h2 : pool1.execute clk1 j d2 = some (pool2, clk2, ts2)) :
    List.Chain' (fun a b => a + p ≤ b) (ts1 ++ ts2) := by
  unfold PacingPool.execute at h1 h2
  cases hci : pool.controllers.get? i with
  | none => rw [hci] at h1; exact absurd h1 (by simp)
  | some ci =>
    rw [hci] at h1
    dsimp only at h1
    have hpi : ci.pause_between_commands = p := hp ci (List.get?_mem hci)
    rcases hr1 : runPacedSends { ci with last_command_at := pool.last_command_at }
        clk d1 with ⟨c2, clk2a, tsa⟩
    rw [hr1] at h1
    simp only [Option.some.injEq, Prod.mk.injEq] at h1
    obtain ⟨hpool1, hclk1, hts1⟩ := h1
    rw [hclk1, hts1] at hr1
    obtain ⟨hp2, hch1, hhd1, hlast1⟩ := runPacedSends_spec _ _ _ _ _ _ hr1
    cases hcj : pool1.controllers.get? j with
    | none => rw [hcj] at h2; exact absurd h2 (by simp)
    | some cj =>
      rw [hcj] at h2
      dsimp only at h2
      have hpj : cj.pause_between_commands = p := by
        rw [← hpool1] at hcj
        simp only at hcj
        rcases List.mem_or_eq_of_mem_set (List.get?_mem hcj) with hm | he
        · exact hp cj hm
        · rw [he]
          simpa [hpi] using hp2
      rcases hr2 : runPacedSends { cj with last_command_at := pool1.last_command_at }
          clk1 d2 with ⟨c4, clk4, tsb⟩
      rw [hr2] at h2
      simp only [Option.some.injEq, Prod.mk.injEq] at h2
      obtain ⟨hpool2, hclk2x, hts2⟩ := h2
      rw [hts2] at hr2
      obtain ⟨hp4, hch2, hhd2, hlast2⟩ := runPacedSends_spec _ _ _ _ _ _ hr2
      have hch1p : List.Chain' (fun a b => a + p ≤ b) ts1 := by
        simpa [hpi] using hch1
      have hch2p : List.Chain' (fun a b => a + p ≤ b) ts2 := by
        simpa [hpj] using hch2
      refine List.Chain'.append hch1p hch2p ?_
      intro x hx y hy
      have hlastpool : pool1.last_command_at = ts1.getLastD pool.last_command_at := by
        rw [← hpool1]
        simpa using hlast1
      have hxval : x = ts1.getLastD pool.last_command_at := by
        rw [List.getLastD_eq_getLast?, Option.mem_def.mp hx]
        rfl
      have hy2 := hhd2 y hy
      rw [hpj] at hy2
      rw [hxval, ← hlastpool]
      linarith

/-- Claim C8 witness: on a two-gateway pool with pause 1, an `execute` on
controller 0 followed by an `execute` on controller 1 transmit at instants
1 and 2, one pause apart. -/
theorem claim_C8_witness :
    (∀ c ∈ samplePool.controllers, c.pause_between_commands = 1)
  ∧ samplePool.execute ⟨0⟩ 0 [0] =
      some (⟨[⟨1, 1⟩, ⟨1, 0⟩], 1⟩, ⟨1⟩, [1])
  ∧ PacingPool.execute ⟨[⟨1, 1⟩, ⟨1, 0⟩], 1⟩ ⟨1⟩ 1 [0] =
      some (⟨[⟨1, 1⟩, ⟨1, 2⟩], 2⟩, ⟨2⟩, [2])
  ∧ List.Chain' (fun a b => a + 1 ≤ b) (([1] : List ℚ) ++ [2]) := by
  have hex1 : samplePool.execute ⟨0⟩ 0 [0] =
      some (⟨[⟨1, 1⟩, ⟨1, 0⟩], 1⟩, ⟨1⟩, [1]) := by
    norm_num [samplePool, PacingPool.execute, runPacedSends, sendCommandPaced,
      List.set]
  have hex2 : PacingPool.execute ⟨[⟨1, 1⟩, ⟨1, 0⟩], 1⟩ ⟨1⟩ 1 [0] =
      some (⟨[⟨1, 1⟩, ⟨1, 2⟩], 2⟩, ⟨2⟩, [2]) := by
    norm_num [PacingPool.execute, runPacedSends, sendCommandPaced, List.set]
  have hp : ∀ c ∈ samplePool.controllers, c.pause_between_commands = 1 := by
    intro c hc
    simp only [samplePool, List.mem_cons, List.not_mem_nil, or_false] at hc
    rcases hc with h | h <;> rw [h]
  exact ⟨hp, hex1, hex2,
    claim_C8_theorem samplePool ⟨0⟩ 0 1 [0] [0] 1 hp _ _ ⟨1⟩ ⟨2⟩ [1] [2] hex1 hex2⟩

theorem mem_of_dictGet : ∀ (d : List (Nat × BulbType)) (k : Nat) (v : BulbType),
    dictGet d k = some v → (k, v) ∈ d := by
  intro d
  induction d with
  | nil => intro k v h; simp [dictGet] at h
  | cons p rest ih =>
    intro k v h
    obtain ⟨k0, v0⟩ := p
    by_cases he : k0 = k
    · simp only [dictGet, he, if_pos, Option.some.injEq] at h
      subst he
      subst h
      exact List.mem_cons_self _ _
    · simp only [dictGet, he, if_false, Bool.false_eq_true] at h
      exact List.mem_cons_of_mem _ (ih k v h)

theorem dictGet_of_mem : ∀ (d : List (Nat × BulbType)) (k : Nat) (v : BulbType),
    (d.map Prod.fst).Nodup → (k, v) ∈ d → dictGet d k = some v := by
  intro d
  induction d with
  | nil => intro k v _ h; simp at h
  | cons p rest ih =>
    intro k v hnd h
    obtain ⟨k0, v0⟩ := p
    simp only [List.map_cons, List.nodup_cons] at hnd
    rcases List.mem_cons.mp h with he | hm
    · injection he with h1 h2
      subst h1
      subst h2
      simp [dictGet]
    · by_cases he2 : k0 = k
      · exfalso
        subst he2
        exact hnd.1 (List.mem_map.mpr ⟨(k0, v), hm, rfl⟩)
      · simp only [dictGet, he2, if_false, Bool.false_eq_true]
        exact ih k v hnd.2 hm

theorem mem_dictSet : ∀ (d : List (Nat × BulbType)) (k : Nat) (v : BulbType)
    (p : Nat × BulbType), p ∈ dictSet d k v → p ∈ d ∨ p = (k, v) := by
  intro d
  induction d with
  | nil => intro k v p h; simp [dictSet] at h; exact Or.inr h
  | cons q rest ih =>
    intro k v p h
    obtain ⟨k0, v0⟩ := q
    by_cases he : k0 = k
    · simp only [dictSet, he, if_pos] at h
      rcases List.mem_cons.mp h with h1 | h1
      · exact Or.inr (he ▸ h1)
      · exact Or.inl (List.mem_cons_of_mem _ h1)
    · simp only [dictSet, he, if_false, Bool.false_eq_true] at h
      rcases List.mem_cons.mp h with h1 | h1
      · exact Or.inl (h1 ▸ List.mem_cons_self _ _)
      · rcases ih k v p h1 with h2 | h2
        · exact Or.inl (List.mem_cons_of_mem _ h2)
        · exact Or.inr h2

theorem keys_dictSet_sub : ∀ (d : List (Nat × BulbType)) (k : Nat) (v : BulbType)
    (a : Nat), a ∈ (dictSet d k v).map Prod.fst → a ∈ d.map Prod.fst ∨ a = k := by
  intro d k v a h
  obtain ⟨p, hp, hpa⟩ := List.mem_map.mp h
  rcases mem_dictSet d k v p hp with h1 | h1
  · exact Or.inl (hpa ▸ List.mem_map.mpr ⟨p, h1, rfl⟩)
  · subst h1
    exact Or.inr hpa.symm

theorem nodup_dictSet : ∀ (d : List (Nat × BulbType)) (k : Nat) (v : BulbType),
    (d.map Prod.fst).Nodup → ((dictSet d k v).map Prod.fst).Nodup := by
  intro d
  induction d with
  | nil => intro k v _; simp [dictSet]
  | cons q rest ih =>
    intro k v hnd
    obtain ⟨k0, v0⟩ := q
    simp only [List.map_cons, List.nodup_cons] at hnd
    by_cases he : k0 = k
    · simp only [dictSet, he, if_pos, List.map_cons, List.nodup_cons]
      exact ⟨he ▸ hnd.1, hnd.2⟩
    · simp only [dictSet, he, if_false, Bool.false_eq_true, List.map_cons,
        List.nodup_cons]
      refine ⟨fun hmem => ?_, ih k v hnd.2⟩
      rcases keys_dictSet_sub rest k v k0 hmem with h1 | h1
      · exact hnd.1 h1
      · exact he h1

theorem flags_iff (d : List (Nat × BulbType)) (v : BulbType)
    (hnd : (d.map Prod.fst).Nodup) (hrange : ∀ p ∈ d, 1 ≤ p.1 ∧ p.1 ≤ 4) :
    ((d.map Prod.snd).contains v = true) ↔
      ∃ k, 1 ≤ k ∧ k ≤ 4 ∧ dictGet d k = some v := by
  rw [List.elem_iff]
  constructor
  · intro h
    obtain ⟨p, hp, hpv⟩ := List.mem_map.mp h
    obtain ⟨h1, h2⟩ := hrange p hp
    exact ⟨p.1, h1, h2, dictGet_of_mem d p.1 v hnd (by
      obtain ⟨a, b⟩ := p
      simpa using hpv ▸ hp)⟩
  · intro ⟨k, _, _, hget⟩
    exact List.mem_map.mpr ⟨(k, v), mem_of_dictGet d k v hget, rfl⟩

/-- A successful `set_group_type` on a well-formed controller and a group
in 1-4 keeps the dict well-formed and recomputes the flags consistently;
an invalid bulb type raises and returns the controller untouched. -/
theorem set_group_type_spec (st : LedController) (g : Nat) (t : String)
    (hwf : stWF st) (hg1 : 1 ≤ g) (hg4 : g ≤ 4) :
    (∀ st' : LedController, st.set_group_type g t = (st', none) →
      stWF st' ∧ flagsConsistent st')
  ∧ (∀ (st' : LedController) (e : Err), st.set_group_type g t = (st', some e) →
      st' = st) := by
  unfold LedController.set_group_type
  by_cases hv : t ≠ "rgbw" ∧ t ≠ "white"
  · rw [if_pos hv]
    exact ⟨fun st' h => absurd h (by simp), fun st' e h => by
      injection h with h1 h2
      exact h1.symm⟩
  · rw [if_neg hv]
    constructor
    · intro st' h
      injection h with h1 h2
      subst h1
      have hnd := nodup_dictSet st.group g
        (if t = "rgbw" then BulbType.rgbw else BulbType.white) hwf.1
      have hrange : ∀ p ∈ dictSet st.group g
          (if t = "rgbw" then BulbType.rgbw else BulbType.white),
          1 ≤ p.1 ∧ p.1 ≤ 4 := by
        intro p hp
        rcases mem_dictSet _ _ _ _ hp with hm | he
        · exact hwf.2 p hm
        · subst he
          exact ⟨hg1, hg4⟩
      refine ⟨⟨hnd, hrange⟩, ?_, ?_⟩
      · simpa using flags_iff _ BulbType.white hnd hrange
      · simpa using flags_iff _ BulbType.rgbw hnd hrange
    · intro st' e h
      exact absurd h (by simp)

/-- Running the constructor's group loop from a well-formed state, with all
groups in 1-4, yields (on success) a well-formed, flag-consistent state. -/
theorem initGroups_spec : ∀ (l : List (Nat × String)) (st : LedController),
    stWF st → (∀ p ∈ l, 1 ≤ p.1 ∧ p.1 ≤ 4) →
    ∀ st', initGroups st l = (st', none) →
      stWF st' ∧ (flagsConsistent st → flagsConsistent st') := by
  intro l
  induction l with
  | nil =>
    intro st hwf hr st' h
    simp only [initGroups, Prod.mk.injEq] at h
    exact h.1 ▸ ⟨hwf, fun hc => hc⟩
  | cons p rest ih =>
    intro st hwf hr st' h
    obtain ⟨g, t⟩ := p
    simp only [initGroups] at h
    cases hset : st.set_group_type g t with
    | mk st2 e =>
      rw [hset] at h
      cases e with
      | some e2 => exact absurd h (by simp)
      | none =>
        simp only at h
        obtain ⟨hg1, hg4⟩ := hr (g, t) (List.mem_cons_self _ _)
        obtain ⟨hwf2, hfc2⟩ := ((set_group_type_spec st g t hwf hg1 hg4).1) st2 hset
        obtain ⟨hwf3, hfc3⟩ := ih st2 hwf2
          (fun q hq => hr q (List.mem_cons_of_mem _ hq)) st' h
        exact ⟨hwf3, fun _ => hfc3 hfc2⟩

/-- Claim C10.  After construction the cached `has_white`/`has_rgbw` flags
agree with the per-group bulb-type dict (`has_white` holds exactly when
some group 1-4 is `"white"`, likewise `has_rgbw`), the invariant is
re-established by every successful `set_group_type` on a group 1-4, and a
`set_group_type` that raises (invalid bulb type) returns the controller -
dict and flags - unchanged. -/
theorem claim_C10_theorem :
    (∀ (g1 g2 g3 g4 : String) (rc : Int) (st : LedController),
      mkLedController g1 g2 g3 g4 rc = (st, none) →
        stWF st ∧ flagsConsistent st)
  ∧ (∀ (st : LedController) (g : Nat) (t : String), stWF st → 1 ≤ g → g ≤ 4 →
      (∀ st' : LedController, st.set_group_type g t = (st', none) →
        stWF st' ∧ flagsConsistent st')
      ∧ (∀ (st' : LedController) (e : Err), st.set_group_type g t = (st', some e) →
        st' = st)) := by
  constructor
  · intro g1 g2 g3 g4 rc st h
    unfold mkLedController at h
    dsimp only at h
    set st0 : LedController :=
      { group := [], has_white := false, has_rgbw := false, repeat_commands := 0 }
      with hst0
    cases hinit : initGroups st0 [(1, g1), (2, g2), (3, g3), (4, g4)] with
    | mk st1 e =>
      rw [hinit] at h
      cases e with
      | some e2 => exact absurd h (by simp)
      | none =>
        have hwf0 : stWF st0 := by
          constructor
          · simp [hst0]
          · intro p hp
            simp [hst0] at hp
        have hfc0 : flagsConsistent st0 := by
          constructor
          · simp only [hst0, Bool.false_eq_true, false_iff]
            rintro ⟨k, _, _, hget⟩
            simp [dictGet] at hget
          · simp only [hst0, Bool.false_eq_true, false_iff]
            rintro ⟨k, _, _, hget⟩
            simp [dictGet] at hget
        obtain ⟨hwf1, hfc1⟩ := initGroups_spec _ st0 hwf0 (by
          intro p hp
          simp only [List.mem_cons, List.not_mem_nil, or_false] at hp
          rcases hp with h | h | h | h <;> subst h <;>
            exact ⟨by norm_num, by norm_num⟩) st1 hinit
        simp only at h
        by_cases hrc : (if rc = 0 then 1 else rc) < 1
        · rw [if_pos hrc] at h
          exact absurd h (by simp)
        · rw [if_neg hrc] at h
          injection h with h1 h2
          subst h1
          have hfc := hfc1 hfc0
          exact ⟨⟨hwf1.1, hwf1.2⟩, hfc.1, hfc.2⟩
  · intro st g t hwf hg1 hg4
    exact set_group_type_spec st g t hwf hg1 hg4

/-- Claim C10 witness: constructing with `group_2="white"` yields flags
consistent with the dict. -/
theorem claim_C10_witness :
    mkLedController "rgbw" "white" "rgbw" "rgbw" 3 = (mixedController, none)
  ∧ stWF mixedController ∧ flagsConsistent mixedController := by
  have hmk : mkLedController "rgbw" "white" "rgbw" "rgbw" 3 =
      (mixedController, none) := by decide
  obtain ⟨hwf, hfc⟩ := claim_C10_theorem.1 "rgbw" "white" "rgbw" "rgbw" 3 _ hmk
  exact ⟨hmk, hwf, hfc⟩
